import Mathlib

/-!
Verification development for the starlane mesh-overlay repository.

Shallow embedding of the core lane/tunnel/routing code:
- the `Frame` wire data model (src/rust/starlane/src/frame.rs) and the
  bincode-style length/tag byte codec used by `FrameCodex`
  (src/rust/starlane-core/src/lane.rs, `bincode::serialize` /
  `bincode::deserialize`, fixed-width little-endian integers, u32 enum
  variant tags, u64 sequence lengths);
- `LaneMeta` hop caches (src/rust/starlane-core/src/lane.rs);
- `ProtoStar` routing and the `CentralFound` flood handler
  (src/rust/starlane/src/proto.rs);
- `LaneMiddle` outbound buffering (src/rust/starlane-core/src/lane.rs);
- the `ProtoTunnel` handshake (src/rust/starlane/src/proto.rs);
- the `ProtoTracker` retry slot (src/rust/starlane/src/proto.rs);
- the tunnel connector reconnect loops (src/rust/starlane-core/src/lane.rs).

Rust machine integers are modelled as `Nat` with explicit bounds where the
width matters; channels are modelled as explicit lists of the values that
cross them, in the order they cross; each concurrent control loop is
modelled as a pure fold over the sequence of events it consumes.
-/

namespace Starlane

/-! ## Byte-level primitives of the bincode wire format -/

/-- Little-endian byte encoding of a natural number in exactly `k` bytes
(the fixed-width integer encoding used by bincode v1 default options). -/
def natToBytesLE : Nat → Nat → List Nat
  | 0, _ => []
  | k + 1, n => n % 256 :: natToBytesLE k (n / 256)

/-- Recombine a little-endian byte list into a natural number. -/
def bytesToNatLE : List Nat → Nat
  | [] => 0
  | b :: bs => b + 256 * bytesToNatLE bs

theorem length_natToBytesLE (k n : Nat) : (natToBytesLE k n).length = k := by
  induction k generalizing n with
  | zero => rfl
  | succ k ih => simp [natToBytesLE, ih]

theorem bytesToNatLE_natToBytesLE (k n : Nat) (h : n < 256 ^ k) :
    bytesToNatLE (natToBytesLE k n) = n := by
  induction k generalizing n with
  | zero => simp [natToBytesLE, bytesToNatLE]; omega
  | succ k ih =>
    have hdiv : n / 256 < 256 ^ k := by
      rw [Nat.div_lt_iff_lt_mul (by norm_num)]
      calc n < 256 ^ (k + 1) := h
        _ = 256 ^ k * 256 := by ring
    simp [natToBytesLE, bytesToNatLE, ih (n / 256) hdiv]
    omega

/-- Take exactly `k` bytes off the front of a byte stream. -/
def readBytesN (k : Nat) (bs : List Nat) : Option (List Nat × List Nat) :=
  if k ≤ bs.length then some (bs.take k, bs.drop k) else none

theorem readBytesN_append (k : Nat) (xs r : List Nat) (h : xs.length = k) :
    readBytesN k (xs ++ r) = some (xs, r) := by
  subst h
  simp [readBytesN, List.take_append, List.drop_append]

/-- Read a `k`-byte little-endian unsigned integer. -/
def readNatLE (k : Nat) (bs : List Nat) : Option (Nat × List Nat) :=
  match readBytesN k bs with
  | some (xs, r) => some (bytesToNatLE xs, r)
  | none => none

theorem readNatLE_append (k n : Nat) (r : List Nat) (h : n < 256 ^ k) :
    readNatLE k (natToBytesLE k n ++ r) = some (n, r) := by
  simp [readNatLE, readBytesN_append k _ r (length_natToBytesLE k n),
    bytesToNatLE_natToBytesLE k n h]

/-- Serialize an `i32` (two's complement, 4 bytes little-endian). -/
def writeI32 (i : Int) : List Nat :=
  natToBytesLE 4 (i % (2 ^ 32)).toNat

/-- Parse an `i32` (two's complement, 4 bytes little-endian). -/
def readI32 (bs : List Nat) : Option (Int × List Nat) :=
  match readNatLE 4 bs with
  | some (n, r) =>
      some (if n < 2 ^ 31 then (n : Int) else (n : Int) - 2 ^ 32, r)
  | none => none

/-- An `i32` value is in range. -/
def i32WF (i : Int) : Bool := -(2 ^ 31) ≤ i && i < 2 ^ 31

theorem readI32_append (i : Int) (r : List Nat) (h : i32WF i = true) :
    readI32 (writeI32 i ++ r) = some (i, r) := by
  simp [i32WF, Bool.and_eq_true, decide_eq_true_eq] at h
  have hmod : (i % (2 ^ 32)).toNat < 256 ^ 4 := by
    have h1 : 0 ≤ i % (2 ^ 32) := Int.emod_nonneg i (by norm_num)
    have h2 : i % (2 ^ 32) < 2 ^ 32 := Int.emod_lt_of_pos i (by norm_num)
    omega
  simp only [writeI32, readI32, readNatLE_append 4 _ r hmod]
  have h1 : 0 ≤ i % (2 ^ 32) := Int.emod_nonneg i (by norm_num)
  have h2 : i % (2 ^ 32) < 2 ^ 32 := Int.emod_lt_of_pos i (by norm_num)
  have hcases : i % (2 ^ 32) = i ∨ i % (2 ^ 32) = i + 2 ^ 32 := by
    omega
  simp only [Option.some.injEq, Prod.mk.injEq]
  refine ⟨?_, trivial⟩
  split <;> omega

/-- bincode enum variant tag: `u32` little-endian. -/
def writeTag (t : Nat) : List Nat := natToBytesLE 4 t

/-- bincode sequence length: `u64` little-endian. -/
def writeLen (n : Nat) : List Nat := natToBytesLE 8 n

theorem readTag_append (t : Nat) (r : List Nat) (h : t < 256 ^ 4) :
    readNatLE 4 (writeTag t ++ r) = some (t, r) :=
  readNatLE_append 4 t r h

/-- Serialize a sequence: `u64` length, then the elements in order. -/
def writeListWith (w : α → List Nat) (xs : List α) : List Nat :=
  writeLen xs.length ++ xs.flatMap w

/-- Parse exactly `k` consecutive elements. -/
def readCount (rd : List Nat → Option (α × List Nat)) :
    Nat → List Nat → Option (List α × List Nat)
  | 0, bs => some ([], bs)
  | k + 1, bs =>
    match rd bs with
    | some (x, r) =>
      match readCount rd k r with
      | some (xs, r') => some (x :: xs, r')
      | none => none
    | none => none

/-- Parse a `u64`-length-prefixed sequence. -/
def readListWith (rd : List Nat → Option (α × List Nat)) (bs : List Nat) :
    Option (List α × List Nat) :=
  match readNatLE 8 bs with
  | some (n, r) => readCount rd n r
  | none => none

theorem readCount_append (rd : List Nat → Option (α × List Nat))
    (w : α → List Nat) (xs : List α) (r : List Nat)
    (helem : ∀ x ∈ xs, ∀ s, rd (w x ++ s) = some (x, s)) :
    readCount rd xs.length (xs.flatMap w ++ r) = some (xs, r) := by
  induction xs with
  | nil => simp [readCount]
  | cons x t ih =>
    have hx := helem x (List.mem_cons_self x t) (t.flatMap w ++ r)
    simp only [List.flatMap_cons, List.length_cons, List.append_assoc] at hx ⊢
    simp only [readCount, hx,
      ih (fun y hy s => helem y (List.mem_cons_of_mem x hy) s)]

theorem readListWith_append (rd : List Nat → Option (α × List Nat))
    (w : α → List Nat) (xs : List α) (r : List Nat)
    (hlen : xs.length < 2 ^ 64)
    (helem : ∀ x ∈ xs, ∀ s, rd (w x ++ s) = some (x, s)) :
    readListWith rd (writeListWith w xs ++ r) = some (xs, r) := by
  have h64 : xs.length < 256 ^ 8 := by norm_num at hlen ⊢; omega
  simp only [writeListWith, writeLen, readListWith, List.append_assoc,
    readNatLE_append 8 _ _ h64]
  exact readCount_append rd w xs r helem

/-- Serialize an `Option`: one tag byte, then the payload when present.
bincode v1 writes the `None`/`Some` discriminant as a single byte. -/
def writeOptionWith (w : α → List Nat) : Option α → List Nat
  | none => [0]
  | some x => 1 :: w x

/-- Parse an `Option`. -/
def readOptionWith (rd : List Nat → Option (α × List Nat)) (bs : List Nat) :
    Option (Option α × List Nat) :=
  match bs with
  | 0 :: r => some (none, r)
  | 1 :: r =>
    match rd r with
    | some (x, r') => some (some x, r')
    | none => none
  | _ => none

theorem readOptionWith_append (rd : List Nat → Option (α × List Nat))
    (w : α → List Nat) (x : Option α) (r : List Nat)
    (helem : ∀ y ∈ x, ∀ s, rd (w y ++ s) = some (y, s)) :
    readOptionWith rd (writeOptionWith w x ++ r) = some (x, r) := by
  cases x with
  | none => simp [writeOptionWith, readOptionWith]
  | some y =>
    have hy := helem y rfl r
    simp [writeOptionWith, readOptionWith, hy]

/-- Serialize a `Vec<u8>`: `u64` length, then the raw bytes. -/
def writeByteSeq (bs : List Nat) : List Nat := writeLen bs.length ++ bs

/-- Parse a `Vec<u8>`. -/
def readByteSeq (bs : List Nat) : Option (List Nat × List Nat) :=
  match readNatLE 8 bs with
  | some (n, r) => readBytesN n r
  | none => none

theorem readByteSeq_append (xs r : List Nat) (hlen : xs.length < 2 ^ 64) :
    readByteSeq (writeByteSeq xs ++ r) = some (xs, r) := by
  have h64 : xs.length < 256 ^ 8 := by norm_num at hlen ⊢; omega
  simp only [writeByteSeq, writeLen, readByteSeq, List.append_assoc,
    readNatLE_append 8 _ _ h64]
  exact readBytesN_append xs.length xs r rfl

/-- A `u16` value is in range. -/
def u16WF (n : Nat) : Bool := n < 2 ^ 16

/-- A `u64`/`usize` value is in range. -/
def u64WF (n : Nat) : Bool := n < 2 ^ 64

theorem readNatLE2_append (n : Nat) (r : List Nat) (h : u16WF n = true) :
    readNatLE 2 (natToBytesLE 2 n ++ r) = some (n, r) := by
  simp only [u16WF, decide_eq_true_eq] at h
  exact readNatLE_append 2 n r (by norm_num at h ⊢; omega)

theorem readNatLE8_append (n : Nat) (r : List Nat) (h : u64WF n = true) :
    readNatLE 8 (natToBytesLE 8 n ++ r) = some (n, r) := by
  simp only [u64WF, decide_eq_true_eq] at h
  exact readNatLE_append 8 n r (by norm_num at h ⊢; omega)

/-! ## Data model

The `Frame` tagged union and its payload types, from
src/rust/starlane/src/frame.rs.  Rust `String` fields are modelled by
their UTF-8 byte lists; `Arc<Vec<u8>>` by the byte list it wraps;
`HashMap<String, ResourcePayload>` by its entry list in serialization
order. -/

/-- A Rust `String`, modelled as its UTF-8 byte list. -/
abbrev ByteStr := List Nat

/-- Modelled from the spec: `crate::star::StarKey` (src/rust/starlane/src/star.rs
is not under src/).  The spec describes it as an opaque, hashable,
totally-ordered node identifier that may encode hierarchical "subgraph"
addressing; `StarKey::new_with_subgraph(subgraph: Vec<u16>, index)` in
src/rust/starlane/src/proto.rs constructs one from a `Vec<u16>` subgraph
path plus an index. -/
structure StarKey where
  subgraph : List Nat
  index : Nat
  deriving DecidableEq, Repr

/-- The well-known key of the Central star (`StarKey::central()`). -/
def StarKey.central : StarKey := ⟨[], 0⟩

/-- Modelled from the spec: `crate::star::StarKind` is not under src/; its
variants are taken from `ProtoStarKernel` in src/rust/starlane/src/proto.rs. -/
inductive StarKind where
  | central
  | mesh
  | supervisor
  | server
  | gateway
  deriving DecidableEq, Repr

/-- Modelled from the spec: `crate::id::Id` (src/rust/starlane/src/id.rs is
not under src/).  The node's id-sequence generator (`IdSeq`) hands out
identifiers; modelled as a pair of unsigned 64-bit counters. -/
structure Id where
  seqId : Nat
  index : Nat
  deriving DecidableEq, Repr

/-- Modelled from the spec: `crate::entity::EntityKey` is not under src/.
`EntityLookup::app_id` in src/rust/starlane/src/frame.rs reads its `app`
field; modelled as an application id plus an entity id. -/
structure EntityKey where
  app : Id
  id : Id
  deriving DecidableEq, Repr

/-- Modelled from the spec: `crate::entity::EntityLocation` is not under
src/; modelled as the entity plus the star hosting it. -/
structure EntityLocation where
  entity : EntityKey
  star : StarKey
  deriving DecidableEq, Repr

/-- Modelled from the spec: `crate::application::AppKey` is not under src/;
modelled as an application `Id`. -/
abbrev AppKey := Id

/-- Modelled from the spec: `crate::application::AppKind` is not under
src/; modelled as a kind name string. -/
abbrev AppKind := ByteStr

/-- Modelled from the spec: `crate::application::AppInfo` is not under
src/; modelled as an application key plus its kind. -/
structure AppInfo where
  key : AppKey
  kind : AppKind
  deriving DecidableEq, Repr

/-- Modelled from the spec: `crate::application::AppLocation` is not under
src/; modelled as the application plus its supervisor star. -/
structure AppLocation where
  app : AppKey
  supervisor : StarKey
  deriving DecidableEq, Repr

/-- Modelled from the spec: `crate::user::User` (the version referenced by
src/rust/starlane/src/frame.rs) is not under src/; modelled as a user id. -/
structure User where
  id : Id
  deriving DecidableEq, Repr

/-- Rust `ProtoFrame` (src/rust/starlane/src/frame.rs lines 19-28): the
handshake-only sub-union. -/
inductive ProtoFrame where
  | starLaneProtocolVersion (version : Int)
  | reportStarKey (key : StarKey)
  | requestSubgraphExpansion
  | grantSubgraphExpansion (path : List Nat)
  | centralSearch
  | centralFound (hops : Nat)
  deriving DecidableEq, Repr

/-- Rust `FrameDiagnose` (frame.rs lines 94-99). -/
inductive FrameDiagnose where
  | ping
  | pong
  deriving DecidableEq, Repr

/-- Rust `StarSearchPattern` (frame.rs lines 122-127). -/
inductive StarSearchPattern where
  | starKey (key : StarKey)
  | starKind (kind : StarKind)
  deriving DecidableEq, Repr

/-- Rust `StarSearch` (frame.rs lines 102-110). -/
structure StarSearch where
  from_ : StarKey
  pattern : StarSearchPattern
  hops : List StarKey
  transactions : List Id
  maxHops : Nat
  deriving DecidableEq, Repr

/-- Rust `SearchHit` (frame.rs lines 161-166). -/
structure SearchHit where
  star : StarKey
  hops : Nat
  deriving DecidableEq, Repr

/-- Rust `StarSearchResult` (frame.rs lines 142-150). -/
structure StarSearchResult where
  missed : Option StarKey
  hits : List SearchHit
  search : StarSearch
  transactions : List Id
  hops : List StarKey
  deriving DecidableEq, Repr

/-- Rust `StarAck` (frame.rs lines 60-65). -/
structure StarAck where
  to_ : StarKey
  id : Id
  deriving DecidableEq, Repr

/-- Rust `StarWindPayload` (frame.rs lines 67-71). -/
inductive StarWindPayload where
  | requestSequence
  deriving DecidableEq, Repr

/-- Rust `StarUnwindPayload` (frame.rs lines 73-77). -/
inductive StarUnwindPayload where
  | assignSequence (n : Int)
  deriving DecidableEq, Repr

/-- Rust `StarWind` (frame.rs lines 79-85). -/
structure StarWind where
  to_ : StarKey
  stars : List StarKey
  payload : StarWindPayload
  deriving DecidableEq, Repr

/-- Rust `StarUnwind` (frame.rs lines 87-92). -/
structure StarUnwind where
  stars : List StarKey
  payload : StarUnwindPayload
  deriving DecidableEq, Repr

/-- Rust `WatchInfo` (frame.rs lines 53-58). -/
structure WatchInfo where
  id : Id
  entity : EntityKey
  deriving DecidableEq, Repr

/-- Rust `Watch` (frame.rs lines 46-51). -/
inductive Watch where
  | add (info : WatchInfo)
  | remove (info : WatchInfo)
  deriving DecidableEq, Repr

/-- Rust `Rejection` (frame.rs lines 396-400). -/
structure Rejection where
  message : ByteStr
  deriving DecidableEq, Repr

/-- Rust `ResourcePayload` (frame.rs lines 293-298). -/
structure ResourcePayload where
  kind : ByteStr
  data : List Nat
  deriving DecidableEq, Repr

/-- Rust `ResourcePayloads` (frame.rs lines 287-291): a `HashMap<String,
ResourcePayload>`, modelled as its entry list in serialization order. -/
structure ResourcePayloads where
  map : List (ByteStr × ResourcePayload)
  deriving DecidableEq, Repr

/-- Rust `ResourceState` (frame.rs lines 262-266). -/
structure ResourceState where
  payloads : ResourcePayloads
  deriving DecidableEq, Repr

/-- Rust `ResourceGathered` (frame.rs lines 268-272). -/
structure ResourceGathered where
  to_ : EntityKey
  deriving DecidableEq, Repr

/-- Rust `ResourceScattered` (frame.rs lines 274-278). -/
structure ResourceScattered where
  from_ : EntityKey
  deriving DecidableEq, Repr

/-- Rust `ResourceBroadcast` (frame.rs lines 280-285). -/
structure ResourceBroadcast where
  topic : ByteStr
  payloads : ResourcePayloads
  deriving DecidableEq, Repr

/-- Rust `ResourceEventKind` (frame.rs lines 253-260). -/
inductive ResourceEventKind where
  | resourceStateChange (state : ResourceState)
  | resourceGathered (g : ResourceGathered)
  | resourceScattered (s : ResourceScattered)
  | broadcast (b : ResourceBroadcast)
  deriving DecidableEq, Repr

/-- Rust `EntityEvent` (frame.rs lines 246-251). -/
structure EntityEvent where
  entity : EntityKey
  kind : ResourceEventKind
  deriving DecidableEq, Repr

/-- Rust `ResourceNameLookup` (frame.rs lines 341-346). -/
structure ResourceNameLookup where
  appId : Id
  name : ByteStr
  deriving DecidableEq, Repr

/-- Rust `EntityLookup` (frame.rs lines 322-327). -/
inductive EntityLookup where
  | key (k : EntityKey)
  | name (n : ResourceNameLookup)
  deriving DecidableEq, Repr

/-- Rust `EntityRequestLocation` (frame.rs lines 308-312). -/
structure EntityRequestLocation where
  lookup : EntityLookup
  deriving DecidableEq, Repr

/-- Rust `EntityFrom` (frame.rs lines 356-361). -/
structure EntityFrom where
  key : EntityKey
  source : Option (List Nat)
  deriving DecidableEq, Repr

/-- Rust `EntityFromKind` (frame.rs lines 349-354). -/
inductive EntityFromKind where
  | entity (e : EntityFrom)
  | user (u : User)
  deriving DecidableEq, Repr

/-- Rust `EntityTo` (frame.rs lines 363-368). -/
structure EntityTo where
  key : EntityKey
  target : Option (List Nat)
  deriving DecidableEq, Repr

/-- Rust `EntityMessage` (frame.rs lines 370-378). -/
structure EntityMessage where
  id : Id
  from_ : EntityFromKind
  to_ : EntityTo
  payloads : ResourcePayloads
  transaction : Option Id
  deriving DecidableEq, Repr

/-- Rust `ApplicationCreateRequest` (frame.rs lines 408-414). -/
structure ApplicationCreateRequest where
  name : Option ByteStr
  kind : AppKind
  data : List Nat
  deriving DecidableEq, Repr

/-- Rust `ApplicationAssign` (frame.rs lines 416-423). -/
structure ApplicationAssign where
  app : AppInfo
  data : List Nat
  notify : List StarKey
  supervisor : StarKey
  deriving DecidableEq, Repr

/-- Rust `ApplicationNotifyReady` (frame.rs lines 425-429). -/
structure ApplicationNotifyReady where
  location : AppLocation
  deriving DecidableEq, Repr

/-- Rust `ApplicationRequestSupervisor` (frame.rs lines 431-435). -/
structure ApplicationRequestSupervisor where
  app : AppKey
  deriving DecidableEq, Repr

/-- Rust `ApplicationReportSupervisor` (frame.rs lines 437-442). -/
structure ApplicationReportSupervisor where
  app : AppKey
  supervisor : StarKey
  deriving DecidableEq, Repr

/-- Rust `ApplicationLookup` (frame.rs lines 402-406). -/
structure ApplicationLookup where
  name : ByteStr
  deriving DecidableEq, Repr

/-- Rust `ApplicationRequestLaunch` (frame.rs lines 388-393). -/
structure ApplicationRequestLaunch where
  appId : Id
  data : List Nat
  deriving DecidableEq, Repr

/-- Rust `StarMessagePayload` (frame.rs lines 226-244). -/
inductive StarMessagePayload where
  | reject (r : Rejection)
  | supervisorPledgeToCentral
  | applicationCreateRequest (r : ApplicationCreateRequest)
  | applicationAssign (a : ApplicationAssign)
  | applicationNotifyReady (n : ApplicationNotifyReady)
  | applicationRequestSupervisor (r : ApplicationRequestSupervisor)
  | applicationReportSupervisor (r : ApplicationReportSupervisor)
  | applicationLookup (l : ApplicationLookup)
  | applicationRequestLaunch (l : ApplicationRequestLaunch)
  | serverPledgeToSupervisor
  | entityStateRequest (k : EntityKey)
  | entityEvent (e : EntityEvent)
  | entityMessage (m : EntityMessage)
  | entityRequestLocation (r : EntityRequestLocation)
  | entityReportLocation (l : EntityLocation)
  deriving DecidableEq, Repr

/-- Rust `StarMessage` (frame.rs lines 169-179). -/
structure StarMessage where
  from_ : StarKey
  to_ : StarKey
  id : Id
  transaction : Option Id
  payload : StarMessagePayload
  retry : Nat
  maxRetries : Nat
  deriving DecidableEq, Repr

/-- Rust `Frame` (src/rust/starlane/src/frame.rs lines 30-44): the tagged union
carried on every lane. -/
inductive Frame where
  | close
  | proto (p : ProtoFrame)
  | diagnose (d : FrameDiagnose)
  | starSearch (s : StarSearch)
  | starSearchResult (r : StarSearchResult)
  | starMessage (m : StarMessage)
  | starAck (a : StarAck)
  | starWind (w : StarWind)
  | starUnwind (u : StarUnwind)
  | watch (w : Watch)
  | entityEvent (e : EntityEvent)
  deriving DecidableEq, Repr

/-! ## The wire codec

`FrameCodex` (src/rust/starlane-core/src/lane.rs lines 726-780) serializes
each frame with `bincode::serialize` and parses with
`bincode::deserialize`.  bincode v1 default options: fixed-width
little-endian integers, `u32` enum variant indices, `u64` sequence and
string lengths, one-byte `Option` discriminants.  Serializers and parsers
below follow the field order of the Rust type declarations. -/

/-- Sequence a parser with a continuation on the unparsed remainder. -/
def pbind (p : List Nat → Option (α × List Nat))
    (f : α → List Nat → Option (β × List Nat)) :
    List Nat → Option (β × List Nat) := fun bs =>
  match p bs with
  | some (x, r) => f x r
  | none => none

/-- Serialize an `i64` (two's complement, 8 bytes little-endian). -/
def writeI64 (i : Int) : List Nat :=
  natToBytesLE 8 (i % (2 ^ 64)).toNat

/-- Parse an `i64`. -/
def readI64 (bs : List Nat) : Option (Int × List Nat) :=
  match readNatLE 8 bs with
  | some (n, r) =>
      some (if n < 2 ^ 63 then (n : Int) else (n : Int) - 2 ^ 64, r)
  | none => none

/-- An `i64` value is in range. -/
def i64WF (i : Int) : Bool := -(2 ^ 63) ≤ i && i < 2 ^ 63

theorem readI64_append (i : Int) (r : List Nat) (h : i64WF i = true) :
    readI64 (writeI64 i ++ r) = some (i, r) := by
  simp [i64WF, Bool.and_eq_true, decide_eq_true_eq] at h
  have h1 : 0 ≤ i % (2 ^ 64) := Int.emod_nonneg i (by norm_num)
  have h2 : i % (2 ^ 64) < 2 ^ 64 := Int.emod_lt_of_pos i (by norm_num)
  have hmod : (i % (2 ^ 64)).toNat < 256 ^ 8 := by norm_num; omega
  simp only [writeI64, readI64, readNatLE_append 8 _ r hmod]
  have hcases : i % (2 ^ 64) = i ∨ i % (2 ^ 64) = i + 2 ^ 64 := by
    omega
  simp only [Option.some.injEq, Prod.mk.injEq]
  refine ⟨?_, trivial⟩
  split <;> omega

/-- A Rust `String` / byte buffer is representable: content bytes with a
`u64` length. -/
def strWF (s : ByteStr) : Bool := s.all (· < 256) && u64WF s.length

theorem readByteSeq_append_wf (s : ByteStr) (r : List Nat)
    (h : strWF s = true) :
    readByteSeq (writeByteSeq s ++ r) = some (s, r) := by
  simp only [strWF, Bool.and_eq_true, u64WF, decide_eq_true_eq] at h
  exact readByteSeq_append s r h.2

/-- Serialize an `Id` (field order: `seq_id`, `index`). -/
def Id.write (x : Id) : List Nat :=
  natToBytesLE 8 x.seqId ++ natToBytesLE 8 x.index

/-- Parse an `Id`. -/
def Id.read : List Nat → Option (Id × List Nat) :=
  pbind (readNatLE 8) fun a =>
    pbind (readNatLE 8) fun b r => some (⟨a, b⟩, r)

/-- An `Id` is representable. -/
def Id.wf (x : Id) : Bool := u64WF x.seqId && u64WF x.index

theorem Id_read_write (x : Id) (r : List Nat) (h : x.wf = true) :
    Id.read (Id.write x ++ r) = some (x, r) := by
  obtain ⟨a, b⟩ := x
  simp only [Id.wf, Bool.and_eq_true] at h
  simp [Id.write, Id.read, pbind, List.append_assoc,
    readNatLE8_append a _ h.1, readNatLE8_append b r h.2]

/-- Serialize a `StarKey` (subgraph `Vec<u16>`, then the `u16` index). -/
def StarKey.write (x : StarKey) : List Nat :=
  writeListWith (natToBytesLE 2) x.subgraph ++ natToBytesLE 2 x.index

/-- Parse a `StarKey`. -/
def StarKey.read : List Nat → Option (StarKey × List Nat) :=
  pbind (readListWith (readNatLE 2)) fun sg =>
    pbind (readNatLE 2) fun i r => some (⟨sg, i⟩, r)

/-- A `StarKey` is representable. -/
def StarKey.wf (x : StarKey) : Bool :=
  x.subgraph.all u16WF && u64WF x.subgraph.length && u16WF x.index

theorem StarKey_read_write (x : StarKey) (r : List Nat) (h : x.wf = true) :
    StarKey.read (StarKey.write x ++ r) = some (x, r) := by
  obtain ⟨sg, i⟩ := x
  simp only [StarKey.wf, Bool.and_eq_true, List.all_eq_true, u64WF,
    decide_eq_true_eq] at h
  have hlist := readListWith_append (readNatLE 2) (natToBytesLE 2) sg
    (natToBytesLE 2 i ++ r) h.1.2
    (fun y hy s => readNatLE2_append y s (h.1.1 y hy))
  simp [StarKey.write, StarKey.read, pbind, List.append_assoc, hlist,
    readNatLE2_append i r h.2]

/-- Serialize a `StarKind` (variant tag only). -/
def StarKind.write : StarKind → List Nat
  | .central => writeTag 0
  | .mesh => writeTag 1
  | .supervisor => writeTag 2
  | .server => writeTag 3
  | .gateway => writeTag 4

/-- Parse a `StarKind`. -/
def StarKind.read : List Nat → Option (StarKind × List Nat) :=
  pbind (readNatLE 4) fun t r =>
    if t = 0 then some (.central, r)
    else if t = 1 then some (.mesh, r)
    else if t = 2 then some (.supervisor, r)
    else if t = 3 then some (.server, r)
    else if t = 4 then some (.gateway, r)
    else none

theorem StarKind_read_write (x : StarKind) (r : List Nat) :
    StarKind.read (StarKind.write x ++ r) = some (x, r) := by
  cases x <;>
    simp [StarKind.write, StarKind.read, pbind,
      readTag_append 0 r (by norm_num), readTag_append 1 r (by norm_num),
      readTag_append 2 r (by norm_num), readTag_append 3 r (by norm_num),
      readTag_append 4 r (by norm_num)]

/-- Serialize an `EntityKey`. -/
def EntityKey.write (x : EntityKey) : List Nat :=
  Id.write x.app ++ Id.write x.id

/-- Parse an `EntityKey`. -/
def EntityKey.read : List Nat → Option (EntityKey × List Nat) :=
  pbind Id.read fun a =>
    pbind Id.read fun b r => some (⟨a, b⟩, r)

/-- An `EntityKey` is representable. -/
def EntityKey.wf (x : EntityKey) : Bool := x.app.wf && x.id.wf

theorem EntityKey_read_write (x : EntityKey) (r : List Nat)
    (h : x.wf = true) :
    EntityKey.read (EntityKey.write x ++ r) = some (x, r) := by
  obtain ⟨a, b⟩ := x
  simp only [EntityKey.wf, Bool.and_eq_true] at h
  simp [EntityKey.write, EntityKey.read, pbind, List.append_assoc,
    Id_read_write a _ h.1, Id_read_write b r h.2]

/-- Serialize an `EntityLocation`. -/
def EntityLocation.write (x : EntityLocation) : List Nat :=
  EntityKey.write x.entity ++ StarKey.write x.star

/-- Parse an `EntityLocation`. -/
def EntityLocation.read : List Nat → Option (EntityLocation × List Nat) :=
  pbind EntityKey.read fun e =>
    pbind StarKey.read fun s r => some (⟨e, s⟩, r)

/-- An `EntityLocation` is representable. -/
def EntityLocation.wf (x : EntityLocation) : Bool :=
  x.entity.wf && x.star.wf

theorem EntityLocation_read_write (x : EntityLocation) (r : List Nat)
    (h : x.wf = true) :
    EntityLocation.read (EntityLocation.write x ++ r) = some (x, r) := by
  obtain ⟨e, s⟩ := x
  simp only [EntityLocation.wf, Bool.and_eq_true] at h
  simp [EntityLocation.write, EntityLocation.read, pbind, List.append_assoc,
    EntityKey_read_write e _ h.1, StarKey_read_write s r h.2]

/-- Serialize an `AppInfo`. -/
def AppInfo.write (x : AppInfo) : List Nat :=
  Id.write x.key ++ writeByteSeq x.kind

/-- Parse an `AppInfo`. -/
def AppInfo.read : List Nat → Option (AppInfo × List Nat) :=
  pbind Id.read fun k =>
    pbind readByteSeq fun kd r => some (⟨k, kd⟩, r)

/-- An `AppInfo` is representable. -/
def AppInfo.wf (x : AppInfo) : Bool := x.key.wf && strWF x.kind

theorem AppInfo_read_write (x : AppInfo) (r : List Nat) (h : x.wf = true) :
    AppInfo.read (AppInfo.write x ++ r) = some (x, r) := by
  obtain ⟨k, kd⟩ := x
  simp only [AppInfo.wf, Bool.and_eq_true] at h
  simp [AppInfo.write, AppInfo.read, pbind, List.append_assoc,
    Id_read_write k _ h.1, readByteSeq_append_wf kd r h.2]

/-- Serialize an `AppLocation`. -/
def AppLocation.write (x : AppLocation) : List Nat :=
  Id.write x.app ++ StarKey.write x.supervisor

/-- Parse an `AppLocation`. -/
def AppLocation.read : List Nat → Option (AppLocation × List Nat) :=
  pbind Id.read fun a =>
    pbind StarKey.read fun s r => some (⟨a, s⟩, r)

/-- An `AppLocation` is representable. -/
def AppLocation.wf (x : AppLocation) : Bool := x.app.wf && x.supervisor.wf

theorem AppLocation_read_write (x : AppLocation) (r : List Nat)
    (h : x.wf = true) :
    AppLocation.read (AppLocation.write x ++ r) = some (x, r) := by
  obtain ⟨a, s⟩ := x
  simp only [AppLocation.wf, Bool.and_eq_true] at h
  simp [AppLocation.write, AppLocation.read, pbind, List.append_assoc,
    Id_read_write a _ h.1, StarKey_read_write s r h.2]

/-- Serialize a `User`. -/
def User.write (x : User) : List Nat := Id.write x.id

/-- Parse a `User`. -/
def User.read : List Nat → Option (User × List Nat) :=
  pbind Id.read fun i r => some (⟨i⟩, r)

/-- A `User` is representable. -/
def User.wf (x : User) : Bool := x.id.wf

theorem User_read_write (x : User) (r : List Nat) (h : x.wf = true) :
    User.read (User.write x ++ r) = some (x, r) := by
  obtain ⟨i⟩ := x
  simp [User.write, User.read, pbind, Id_read_write i r h]

/-- Serialize a `ProtoFrame` (variant order of frame.rs lines 19-28). -/
def ProtoFrame.write : ProtoFrame → List Nat
  | .starLaneProtocolVersion v => writeTag 0 ++ writeI32 v
  | .reportStarKey k => writeTag 1 ++ StarKey.write k
  | .requestSubgraphExpansion => writeTag 2
  | .grantSubgraphExpansion path => writeTag 3 ++ writeListWith (natToBytesLE 2) path
  | .centralSearch => writeTag 4
  | .centralFound hops => writeTag 5 ++ natToBytesLE 8 hops

/-- Parse a `ProtoFrame`. -/
def ProtoFrame.read : List Nat → Option (ProtoFrame × List Nat) :=
  pbind (readNatLE 4) fun t =>
    if t = 0 then
      pbind readI32 fun v r => some (.starLaneProtocolVersion v, r)
    else if t = 1 then
      pbind StarKey.read fun k r => some (.reportStarKey k, r)
    else if t = 2 then fun r => some (.requestSubgraphExpansion, r)
    else if t = 3 then
      pbind (readListWith (readNatLE 2)) fun p r =>
        some (.grantSubgraphExpansion p, r)
    else if t = 4 then fun r => some (.centralSearch, r)
    else if t = 5 then
      pbind (readNatLE 8) fun h r => some (.centralFound h, r)
    else fun _ => none

/-- A `ProtoFrame` is representable. -/
def ProtoFrame.wf : ProtoFrame → Bool
  | .starLaneProtocolVersion v => i32WF v
  | .reportStarKey k => k.wf
  | .requestSubgraphExpansion => true
  | .grantSubgraphExpansion path => path.all u16WF && u64WF path.length
  | .centralSearch => true
  | .centralFound hops => u64WF hops

theorem ProtoFrame_read_write (x : ProtoFrame) (r : List Nat)
    (h : x.wf = true) :
    ProtoFrame.read (ProtoFrame.write x ++ r) = some (x, r) := by
  cases x with
  | starLaneProtocolVersion v =>
    simp only [ProtoFrame.wf] at h
    simp [ProtoFrame.write, ProtoFrame.read, pbind, List.append_assoc,
      readTag_append 0 _ (by norm_num), readI32_append v r h]
  | reportStarKey k =>
    simp only [ProtoFrame.wf] at h
    simp [ProtoFrame.write, ProtoFrame.read, pbind, List.append_assoc,
      readTag_append 1 _ (by norm_num), StarKey_read_write k r h]
  | requestSubgraphExpansion =>
    simp [ProtoFrame.write, ProtoFrame.read, pbind,
      readTag_append 2 _ (by norm_num)]
  | grantSubgraphExpansion path =>
    simp only [ProtoFrame.wf, Bool.and_eq_true, List.all_eq_true, u64WF,
      decide_eq_true_eq] at h
    have hlist := readListWith_append (readNatLE 2) (natToBytesLE 2) path r
      h.2 (fun y hy s => readNatLE2_append y s (h.1 y hy))
    simp [ProtoFrame.write, ProtoFrame.read, pbind, List.append_assoc,
      readTag_append 3 _ (by norm_num), hlist]
  | centralSearch =>
    simp [ProtoFrame.write, ProtoFrame.read, pbind,
      readTag_append 4 _ (by norm_num)]
  | centralFound hops =>
    simp only [ProtoFrame.wf] at h
    simp [ProtoFrame.write, ProtoFrame.read, pbind, List.append_assoc,
      readTag_append 5 _ (by norm_num), readNatLE8_append hops r h]

/-- Serialize a `FrameDiagnose`. -/
def FrameDiagnose.write : FrameDiagnose → List Nat
  | .ping => writeTag 0
  | .pong => writeTag 1

/-- Parse a `FrameDiagnose`. -/
def FrameDiagnose.read : List Nat → Option (FrameDiagnose × List Nat) :=
  pbind (readNatLE 4) fun t r =>
    if t = 0 then some (.ping, r)
    else if t = 1 then some (.pong, r)
    else none

theorem FrameDiagnose_read_write (x : FrameDiagnose) (r : List Nat) :
    FrameDiagnose.read (FrameDiagnose.write x ++ r) = some (x, r) := by
  cases x <;>
    simp [FrameDiagnose.write, FrameDiagnose.read, pbind,
      readTag_append 0 r (by norm_num), readTag_append 1 r (by norm_num)]

/-- Serialize a `StarSearchPattern`. -/
def StarSearchPattern.write : StarSearchPattern → List Nat
  | .starKey k => writeTag 0 ++ StarKey.write k
  | .starKind k => writeTag 1 ++ StarKind.write k

/-- Parse a `StarSearchPattern`. -/
def StarSearchPattern.read : List Nat → Option (StarSearchPattern × List Nat) :=
  pbind (readNatLE 4) fun t =>
    if t = 0 then pbind StarKey.read fun k r => some (.starKey k, r)
    else if t = 1 then pbind StarKind.read fun k r => some (.starKind k, r)
    else fun _ => none

/-- A `StarSearchPattern` is representable. -/
def StarSearchPattern.wf : StarSearchPattern → Bool
  | .starKey k => k.wf
  | .starKind _ => true

theorem StarSearchPattern_read_write (x : StarSearchPattern) (r : List Nat)
    (h : x.wf = true) :
    StarSearchPattern.read (StarSearchPattern.write x ++ r) = some (x, r) := by
  cases x with
  | starKey k =>
    simp only [StarSearchPattern.wf] at h
    simp [StarSearchPattern.write, StarSearchPattern.read, pbind,
      List.append_assoc, readTag_append 0 _ (by norm_num),
      StarKey_read_write k r h]
  | starKind k =>
    simp [StarSearchPattern.write, StarSearchPattern.read, pbind,
      List.append_assoc, readTag_append 1 _ (by norm_num),
      StarKind_read_write k r]

/-- Serialize a `StarSearch` (field order of frame.rs lines 102-110). -/
def StarSearch.write (x : StarSearch) : List Nat :=
  StarKey.write x.from_ ++ StarSearchPattern.write x.pattern ++
    writeListWith StarKey.write x.hops ++ writeListWith Id.write x.transactions ++
    natToBytesLE 8 x.maxHops

/-- Parse a `StarSearch`. -/
def StarSearch.read : List Nat → Option (StarSearch × List Nat) :=
  pbind StarKey.read fun f =>
    pbind StarSearchPattern.read fun p =>
      pbind (readListWith StarKey.read) fun hs =>
        pbind (readListWith Id.read) fun ts =>
          pbind (readNatLE 8) fun m r => some (⟨f, p, hs, ts, m⟩, r)

/-- A `StarSearch` is representable. -/
def StarSearch.wf (x : StarSearch) : Bool :=
  x.from_.wf && x.pattern.wf &&
    (x.hops.all StarKey.wf && u64WF x.hops.length) &&
    (x.transactions.all Id.wf && u64WF x.transactions.length) &&
    u64WF x.maxHops

theorem StarSearch_read_write (x : StarSearch) (r : List Nat)
    (h : x.wf = true) :
    StarSearch.read (StarSearch.write x ++ r) = some (x, r) := by
  obtain ⟨f, p, hs, ts, m⟩ := x
  simp only [StarSearch.wf, Bool.and_eq_true, List.all_eq_true, u64WF,
    decide_eq_true_eq] at h
  obtain ⟨⟨⟨⟨hf, hp⟩, hhs⟩, hts⟩, hm⟩ := h
  have hlist1 := fun s => readListWith_append StarKey.read StarKey.write hs s
    hhs.2 (fun y hy u => StarKey_read_write y u (hhs.1 y hy))
  have hlist2 := fun s => readListWith_append Id.read Id.write ts s
    hts.2 (fun y hy u => Id_read_write y u (hts.1 y hy))
  simp [StarSearch.write, StarSearch.read, pbind, List.append_assoc,
    StarKey_read_write f _ hf, StarSearchPattern_read_write p _ hp,
    hlist1, hlist2, readNatLE_append 8 m r (by norm_num at hm ⊢; omega)]

/-- Serialize a `SearchHit`. -/
def SearchHit.write (x : SearchHit) : List Nat :=
  StarKey.write x.star ++ natToBytesLE 8 x.hops

/-- Parse a `SearchHit`. -/
def SearchHit.read : List Nat → Option (SearchHit × List Nat) :=
  pbind StarKey.read fun s =>
    pbind (readNatLE 8) fun h r => some (⟨s, h⟩, r)

/-- A `SearchHit` is representable. -/
def SearchHit.wf (x : SearchHit) : Bool := x.star.wf && u64WF x.hops

theorem SearchHit_read_write (x : SearchHit) (r : List Nat)
    (h : x.wf = true) :
    SearchHit.read (SearchHit.write x ++ r) = some (x, r) := by
  obtain ⟨s, hp⟩ := x
  simp only [SearchHit.wf, Bool.and_eq_true] at h
  simp [SearchHit.write, SearchHit.read, pbind, List.append_assoc,
    StarKey_read_write s _ h.1, readNatLE8_append hp r h.2]

/-- Serialize a `StarSearchResult` (field order of frame.rs lines 142-150). -/
def StarSearchResult.write (x : StarSearchResult) : List Nat :=
  writeOptionWith StarKey.write x.missed ++ writeListWith SearchHit.write x.hits ++
    StarSearch.write x.search ++ writeListWith Id.write x.transactions ++
    writeListWith StarKey.write x.hops

/-- Parse a `StarSearchResult`. -/
def StarSearchResult.read : List Nat → Option (StarSearchResult × List Nat) :=
  pbind (readOptionWith StarKey.read) fun ms =>
    pbind (readListWith SearchHit.read) fun hits =>
      pbind StarSearch.read fun se =>
        pbind (readListWith Id.read) fun ts =>
          pbind (readListWith StarKey.read) fun hs r =>
            some (⟨ms, hits, se, ts, hs⟩, r)

/-- A `StarSearchResult` is representable. -/
def StarSearchResult.wf (x : StarSearchResult) : Bool :=
  (x.missed.all StarKey.wf) && (x.hits.all SearchHit.wf && u64WF x.hits.length) &&
    x.search.wf && (x.transactions.all Id.wf && u64WF x.transactions.length) &&
    (x.hops.all StarKey.wf && u64WF x.hops.length)

theorem StarSearchResult_read_write (x : StarSearchResult) (r : List Nat)
    (h : x.wf = true) :
    StarSearchResult.read (StarSearchResult.write x ++ r) = some (x, r) := by
  obtain ⟨ms, hits, se, ts, hs⟩ := x
  simp only [StarSearchResult.wf, Bool.and_eq_true, List.all_eq_true,
    u64WF, decide_eq_true_eq] at h
  obtain ⟨⟨⟨⟨hms, hhits⟩, hse⟩, hts⟩, hhs⟩ := h
  have hopt := fun s => readOptionWith_append StarKey.read StarKey.write ms s
    (fun y hy u => StarKey_read_write y u (by
      cases ms with
      | none => cases hy
      | some z => cases hy; exact hms))
  have hlist1 := fun s => readListWith_append SearchHit.read SearchHit.write
    hits s hhits.2 (fun y hy u => SearchHit_read_write y u (hhits.1 y hy))
  have hlist2 := fun s => readListWith_append Id.read Id.write ts s
    hts.2 (fun y hy u => Id_read_write y u (hts.1 y hy))
  have hlist3 := fun s => readListWith_append StarKey.read StarKey.write hs s
    hhs.2 (fun y hy u => StarKey_read_write y u (hhs.1 y hy))
  simp [StarSearchResult.write, StarSearchResult.read, pbind,
    List.append_assoc, hopt, hlist1, hlist2, hlist3,
    StarSearch_read_write se _ hse]

/-- Serialize a `StarAck`. -/
def StarAck.write (x : StarAck) : List Nat :=
  StarKey.write x.to_ ++ Id.write x.id

/-- Parse a `StarAck`. -/
def StarAck.read : List Nat → Option (StarAck × List Nat) :=
  pbind StarKey.read fun t =>
    pbind Id.read fun i r => some (⟨t, i⟩, r)

/-- A `StarAck` is representable. -/
def StarAck.wf (x : StarAck) : Bool := x.to_.wf && x.id.wf

theorem StarAck_read_write (x : StarAck) (r : List Nat) (h : x.wf = true) :
    StarAck.read (StarAck.write x ++ r) = some (x, r) := by
  obtain ⟨t, i⟩ := x
  simp only [StarAck.wf, Bool.and_eq_true] at h
  simp [StarAck.write, StarAck.read, pbind, List.append_assoc,
    StarKey_read_write t _ h.1, Id_read_write i r h.2]

/-- Serialize a `StarWindPayload`. -/
def StarWindPayload.write : StarWindPayload → List Nat
  | .requestSequence => writeTag 0

/-- Parse a `StarWindPayload`. -/
def StarWindPayload.read : List Nat → Option (StarWindPayload × List Nat) :=
  pbind (readNatLE 4) fun t r =>
    if t = 0 then some (.requestSequence, r) else none

theorem StarWindPayload_read_write (x : StarWindPayload) (r : List Nat) :
    StarWindPayload.read (StarWindPayload.write x ++ r) = some (x, r) := by
  cases x
  simp [StarWindPayload.write, StarWindPayload.read, pbind,
    readTag_append 0 r (by norm_num)]

/-- Serialize a `StarUnwindPayload`. -/
def StarUnwindPayload.write : StarUnwindPayload → List Nat
  | .assignSequence n => writeTag 0 ++ writeI64 n

/-- Parse a `StarUnwindPayload`. -/
def StarUnwindPayload.read : List Nat → Option (StarUnwindPayload × List Nat) :=
  pbind (readNatLE 4) fun t =>
    if t = 0 then pbind readI64 fun n r => some (.assignSequence n, r)
    else fun _ => none

/-- A `StarUnwindPayload` is representable. -/
def StarUnwindPayload.wf : StarUnwindPayload → Bool
  | .assignSequence n => i64WF n

theorem StarUnwindPayload_read_write (x : StarUnwindPayload) (r : List Nat)
    (h : x.wf = true) :
    StarUnwindPayload.read (StarUnwindPayload.write x ++ r) = some (x, r) := by
  cases x with
  | assignSequence n =>
    simp only [StarUnwindPayload.wf] at h
    simp [StarUnwindPayload.write, StarUnwindPayload.read, pbind,
      List.append_assoc, readTag_append 0 _ (by norm_num),
      readI64_append n r h]

/-- Serialize a `StarWind`. -/
def StarWind.write (x : StarWind) : List Nat :=
  StarKey.write x.to_ ++ writeListWith StarKey.write x.stars ++
    StarWindPayload.write x.payload

/-- Parse a `StarWind`. -/
def StarWind.read : List Nat → Option (StarWind × List Nat) :=
  pbind StarKey.read fun t =>
    pbind (readListWith StarKey.read) fun ss =>
      pbind StarWindPayload.read fun p r => some (⟨t, ss, p⟩, r)

/-- A `StarWind` is representable. -/
def StarWind.wf (x : StarWind) : Bool :=
  x.to_.wf && (x.stars.all StarKey.wf && u64WF x.stars.length)

theorem StarWind_read_write (x : StarWind) (r : List Nat)
    (h : x.wf = true) :
    StarWind.read (StarWind.write x ++ r) = some (x, r) := by
  obtain ⟨t, ss, p⟩ := x
  simp only [StarWind.wf, Bool.and_eq_true, List.all_eq_true, u64WF,
    decide_eq_true_eq] at h
  have hlist := fun s => readListWith_append StarKey.read StarKey.write ss s
    h.2.2 (fun y hy u => StarKey_read_write y u (h.2.1 y hy))
  simp [StarWind.write, StarWind.read, pbind, List.append_assoc,
    StarKey_read_write t _ h.1, hlist, StarWindPayload_read_write p r]

/-- Serialize a `StarUnwind`. -/
def StarUnwind.write (x : StarUnwind) : List Nat :=
  writeListWith StarKey.write x.stars ++ StarUnwindPayload.write x.payload

/-- Parse a `StarUnwind`. -/
def StarUnwind.read : List Nat → Option (StarUnwind × List Nat) :=
  pbind (readListWith StarKey.read) fun ss =>
    pbind StarUnwindPayload.read fun p r => some (⟨ss, p⟩, r)

/-- A `StarUnwind` is representable. -/
def StarUnwind.wf (x : StarUnwind) : Bool :=
  (x.stars.all StarKey.wf && u64WF x.stars.length) && x.payload.wf

theorem StarUnwind_read_write (x : StarUnwind) (r : List Nat)
    (h : x.wf = true) :
    StarUnwind.read (StarUnwind.write x ++ r) = some (x, r) := by
  obtain ⟨ss, p⟩ := x
  simp only [StarUnwind.wf, Bool.and_eq_true, List.all_eq_true, u64WF,
    decide_eq_true_eq] at h
  have hlist := fun s => readListWith_append StarKey.read StarKey.write ss s
    h.1.2 (fun y hy u => StarKey_read_write y u (h.1.1 y hy))
  simp [StarUnwind.write, StarUnwind.read, pbind, List.append_assoc,
    hlist, StarUnwindPayload_read_write p r h.2]

/-- Serialize a `WatchInfo`. -/
def WatchInfo.write (x : WatchInfo) : List Nat :=
  Id.write x.id ++ EntityKey.write x.entity

/-- Parse a `WatchInfo`. -/
def WatchInfo.read : List Nat → Option (WatchInfo × List Nat) :=
  pbind Id.read fun i =>
    pbind EntityKey.read fun e r => some (⟨i, e⟩, r)

/-- A `WatchInfo` is representable. -/
def WatchInfo.wf (x : WatchInfo) : Bool := x.id.wf && x.entity.wf

theorem WatchInfo_read_write (x : WatchInfo) (r : List Nat)
    (h : x.wf = true) :
    WatchInfo.read (WatchInfo.write x ++ r) = some (x, r) := by
  obtain ⟨i, e⟩ := x
  simp only [WatchInfo.wf, Bool.and_eq_true] at h
  simp [WatchInfo.write, WatchInfo.read, pbind, List.append_assoc,
    Id_read_write i _ h.1, EntityKey_read_write e r h.2]

/-- Serialize a `Watch`. -/
def Watch.write : Watch → List Nat
  | .add info => writeTag 0 ++ WatchInfo.write info
  | .remove info => writeTag 1 ++ WatchInfo.write info

/-- Parse a `Watch`. -/
def Watch.read : List Nat → Option (Watch × List Nat) :=
  pbind (readNatLE 4) fun t =>
    if t = 0 then pbind WatchInfo.read fun i r => some (.add i, r)
    else if t = 1 then pbind WatchInfo.read fun i r => some (.remove i, r)
    else fun _ => none

/-- A `Watch` is representable. -/
def Watch.wf : Watch → Bool
  | .add info => info.wf
  | .remove info => info.wf

theorem Watch_read_write (x : Watch) (r : List Nat) (h : x.wf = true) :
    Watch.read (Watch.write x ++ r) = some (x, r) := by
  cases x with
  | add info =>
    simp only [Watch.wf] at h
    simp [Watch.write, Watch.read, pbind, List.append_assoc,
      readTag_append 0 _ (by norm_num), WatchInfo_read_write info r h]
  | remove info =>
    simp only [Watch.wf] at h
    simp [Watch.write, Watch.read, pbind, List.append_assoc,
      readTag_append 1 _ (by norm_num), WatchInfo_read_write info r h]

/-- Serialize a `Rejection`. -/
def Rejection.write (x : Rejection) : List Nat := writeByteSeq x.message

/-- Parse a `Rejection`. -/
def Rejection.read : List Nat → Option (Rejection × List Nat) :=
  pbind readByteSeq fun m r => some (⟨m⟩, r)

/-- A `Rejection` is representable. -/
def Rejection.wf (x : Rejection) : Bool := strWF x.message

theorem Rejection_read_write (x : Rejection) (r : List Nat)
    (h : x.wf = true) :
    Rejection.read (Rejection.write x ++ r) = some (x, r) := by
  obtain ⟨m⟩ := x
  simp [Rejection.write, Rejection.read, pbind, readByteSeq_append_wf m r h]

/-- Serialize a `ResourcePayload` (`kind: String`, `data: Arc<Vec<u8>>`;
an `Arc<T>` serializes as its payload `T`). -/
def ResourcePayload.write (x : ResourcePayload) : List Nat :=
  writeByteSeq x.kind ++ writeByteSeq x.data

/-- Parse a `ResourcePayload`. -/
def ResourcePayload.read : List Nat → Option (ResourcePayload × List Nat) :=
  pbind readByteSeq fun k =>
    pbind readByteSeq fun d r => some (⟨k, d⟩, r)

/-- A `ResourcePayload` is representable. -/
def ResourcePayload.wf (x : ResourcePayload) : Bool :=
  strWF x.kind && strWF x.data

theorem ResourcePayload_read_write (x : ResourcePayload) (r : List Nat)
    (h : x.wf = true) :
    ResourcePayload.read (ResourcePayload.write x ++ r) = some (x, r) := by
  obtain ⟨k, d⟩ := x
  simp only [ResourcePayload.wf, Bool.and_eq_true] at h
  simp [ResourcePayload.write, ResourcePayload.read, pbind,
    List.append_assoc, readByteSeq_append_wf k _ h.1,
    readByteSeq_append_wf d r h.2]

/-- Serialize one `HashMap` entry: key string, then value. -/
def writePayloadEntry (x : ByteStr × ResourcePayload) : List Nat :=
  writeByteSeq x.1 ++ ResourcePayload.write x.2

/-- Parse one `HashMap` entry. -/
def readPayloadEntry : List Nat → Option ((ByteStr × ResourcePayload) × List Nat) :=
  pbind readByteSeq fun k =>
    pbind ResourcePayload.read fun v r => some ((k, v), r)

/-- A map entry is representable. -/
def payloadEntryWF (x : ByteStr × ResourcePayload) : Bool :=
  strWF x.1 && x.2.wf

theorem readPayloadEntry_append (x : ByteStr × ResourcePayload)
    (r : List Nat) (h : payloadEntryWF x = true) :
    readPayloadEntry (writePayloadEntry x ++ r) = some (x, r) := by
  obtain ⟨k, v⟩ := x
  simp only [payloadEntryWF, Bool.and_eq_true] at h
  simp [writePayloadEntry, readPayloadEntry, pbind, List.append_assoc,
    readByteSeq_append_wf k _ h.1, ResourcePayload_read_write v r h.2]

/-- Serialize a `ResourcePayloads` (`HashMap<String, ResourcePayload>`:
`u64` entry count, then the entries in iteration order). -/
def ResourcePayloads.write (x : ResourcePayloads) : List Nat :=
  writeListWith writePayloadEntry x.map

/-- Parse a `ResourcePayloads`. -/
def ResourcePayloads.read : List Nat → Option (ResourcePayloads × List Nat) :=
  pbind (readListWith readPayloadEntry) fun m r => some (⟨m⟩, r)

/-- A `ResourcePayloads` is representable. -/
def ResourcePayloads.wf (x : ResourcePayloads) : Bool :=
  x.map.all payloadEntryWF && u64WF x.map.length

theorem ResourcePayloads_read_write (x : ResourcePayloads) (r : List Nat)
    (h : x.wf = true) :
    ResourcePayloads.read (ResourcePayloads.write x ++ r) = some (x, r) := by
  obtain ⟨m⟩ := x
  simp only [ResourcePayloads.wf, Bool.and_eq_true, List.all_eq_true, u64WF,
    decide_eq_true_eq] at h
  have hlist := readListWith_append readPayloadEntry writePayloadEntry m r
    h.2 (fun y hy u => readPayloadEntry_append y u (h.1 y hy))
  simp [ResourcePayloads.write, ResourcePayloads.read, pbind, hlist]

/-- Serialize a `ResourceState`. -/
def ResourceState.write (x : ResourceState) : List Nat :=
  ResourcePayloads.write x.payloads

/-- Parse a `ResourceState`. -/
def ResourceState.read : List Nat → Option (ResourceState × List Nat) :=
  pbind ResourcePayloads.read fun p r => some (⟨p⟩, r)

/-- A `ResourceState` is representable. -/
def ResourceState.wf (x : ResourceState) : Bool := x.payloads.wf

theorem ResourceState_read_write (x : ResourceState) (r : List Nat)
    (h : x.wf = true) :
    ResourceState.read (ResourceState.write x ++ r) = some (x, r) := by
  obtain ⟨p⟩ := x
  simp [ResourceState.write, ResourceState.read, pbind,
    ResourcePayloads_read_write p r h]

/-- Serialize a `ResourceGathered`. -/
def ResourceGathered.write (x : ResourceGathered) : List Nat :=
  EntityKey.write x.to_

/-- Parse a `ResourceGathered`. -/
def ResourceGathered.read : List Nat → Option (ResourceGathered × List Nat) :=
  pbind EntityKey.read fun e r => some (⟨e⟩, r)

/-- A `ResourceGathered` is representable. -/
def ResourceGathered.wf (x : ResourceGathered) : Bool := x.to_.wf

theorem ResourceGathered_read_write (x : ResourceGathered) (r : List Nat)
    (h : x.wf = true) :
    ResourceGathered.read (ResourceGathered.write x ++ r) = some (x, r) := by
  obtain ⟨e⟩ := x
  simp [ResourceGathered.write, ResourceGathered.read, pbind,
    EntityKey_read_write e r h]

/-- Serialize a `ResourceScattered`. -/
def ResourceScattered.write (x : ResourceScattered) : List Nat :=
  EntityKey.write x.from_

/-- Parse a `ResourceScattered`. -/
def ResourceScattered.read : List Nat → Option (ResourceScattered × List Nat) :=
  pbind EntityKey.read fun e r => some (⟨e⟩, r)

/-- A `ResourceScattered` is representable. -/
def ResourceScattered.wf (x : ResourceScattered) : Bool := x.from_.wf

theorem ResourceScattered_read_write (x : ResourceScattered) (r : List Nat)
    (h : x.wf = true) :
    ResourceScattered.read (ResourceScattered.write x ++ r) = some (x, r) := by
  obtain ⟨e⟩ := x
  simp [ResourceScattered.write, ResourceScattered.read, pbind,
    EntityKey_read_write e r h]

/-- Serialize a `ResourceBroadcast`. -/
def ResourceBroadcast.write (x : ResourceBroadcast) : List Nat :=
  writeByteSeq x.topic ++ ResourcePayloads.write x.payloads

/-- Parse a `ResourceBroadcast`. -/
def ResourceBroadcast.read : List Nat → Option (ResourceBroadcast × List Nat) :=
  pbind readByteSeq fun t =>
    pbind ResourcePayloads.read fun p r => some (⟨t, p⟩, r)

/-- A `ResourceBroadcast` is representable. -/
def ResourceBroadcast.wf (x : ResourceBroadcast) : Bool :=
  strWF x.topic && x.payloads.wf

theorem ResourceBroadcast_read_write (x : ResourceBroadcast) (r : List Nat)
    (h : x.wf = true) :
    ResourceBroadcast.read (ResourceBroadcast.write x ++ r) = some (x, r) := by
  obtain ⟨t, p⟩ := x
  simp only [ResourceBroadcast.wf, Bool.and_eq_true] at h
  simp [ResourceBroadcast.write, ResourceBroadcast.read, pbind,
    List.append_assoc, readByteSeq_append_wf t _ h.1,
    ResourcePayloads_read_write p r h.2]

/-- Serialize a `ResourceEventKind`. -/
def ResourceEventKind.write : ResourceEventKind → List Nat
  | .resourceStateChange s => writeTag 0 ++ ResourceState.write s
  | .resourceGathered g => writeTag 1 ++ ResourceGathered.write g
  | .resourceScattered s => writeTag 2 ++ ResourceScattered.write s
  | .broadcast b => writeTag 3 ++ ResourceBroadcast.write b

/-- Parse a `ResourceEventKind`. -/
def ResourceEventKind.read : List Nat → Option (ResourceEventKind × List Nat) :=
  pbind (readNatLE 4) fun t =>
    if t = 0 then
      pbind ResourceState.read fun s r => some (.resourceStateChange s, r)
    else if t = 1 then
      pbind ResourceGathered.read fun g r => some (.resourceGathered g, r)
    else if t = 2 then
      pbind ResourceScattered.read fun s r => some (.resourceScattered s, r)
    else if t = 3 then
      pbind ResourceBroadcast.read fun b r => some (.broadcast b, r)
    else fun _ => none

/-- A `ResourceEventKind` is representable. -/
def ResourceEventKind.wf : ResourceEventKind → Bool
  | .resourceStateChange s => s.wf
  | .resourceGathered g => g.wf
  | .resourceScattered s => s.wf
  | .broadcast b => b.wf

theorem ResourceEventKind_read_write (x : ResourceEventKind) (r : List Nat)
    (h : x.wf = true) :
    ResourceEventKind.read (ResourceEventKind.write x ++ r) = some (x, r) := by
  cases x with
  | resourceStateChange s =>
    simp only [ResourceEventKind.wf] at h
    simp [ResourceEventKind.write, ResourceEventKind.read, pbind,
      List.append_assoc, readTag_append 0 _ (by norm_num),
      ResourceState_read_write s r h]
  | resourceGathered g =>
    simp only [ResourceEventKind.wf] at h
    simp [ResourceEventKind.write, ResourceEventKind.read, pbind,
      List.append_assoc, readTag_append 1 _ (by norm_num),
      ResourceGathered_read_write g r h]
  | resourceScattered s =>
    simp only [ResourceEventKind.wf] at h
    simp [ResourceEventKind.write, ResourceEventKind.read, pbind,
      List.append_assoc, readTag_append 2 _ (by norm_num),
      ResourceScattered_read_write s r h]
  | broadcast b =>
    simp only [ResourceEventKind.wf] at h
    simp [ResourceEventKind.write, ResourceEventKind.read, pbind,
      List.append_assoc, readTag_append 3 _ (by norm_num),
      ResourceBroadcast_read_write b r h]

/-- Serialize an `EntityEvent`. -/
def EntityEvent.write (x : EntityEvent) : List Nat :=
  EntityKey.write x.entity ++ ResourceEventKind.write x.kind

/-- Parse an `EntityEvent`. -/
def EntityEvent.read : List Nat → Option (EntityEvent × List Nat) :=
  pbind EntityKey.read fun e =>
    pbind ResourceEventKind.read fun k r => some (⟨e, k⟩, r)

/-- An `EntityEvent` is representable. -/
def EntityEvent.wf (x : EntityEvent) : Bool := x.entity.wf && x.kind.wf

theorem EntityEvent_read_write (x : EntityEvent) (r : List Nat)
    (h : x.wf = true) :
    EntityEvent.read (EntityEvent.write x ++ r) = some (x, r) := by
  obtain ⟨e, k⟩ := x
  simp only [EntityEvent.wf, Bool.and_eq_true] at h
  simp [EntityEvent.write, EntityEvent.read, pbind, List.append_assoc,
    EntityKey_read_write e _ h.1, ResourceEventKind_read_write k r h.2]

/-- Serialize a `ResourceNameLookup`. -/
def ResourceNameLookup.write (x : ResourceNameLookup) : List Nat :=
  Id.write x.appId ++ writeByteSeq x.name

/-- Parse a `ResourceNameLookup`. -/
def ResourceNameLookup.read : List Nat → Option (ResourceNameLookup × List Nat) :=
  pbind Id.read fun a =>
    pbind readByteSeq fun n r => some (⟨a, n⟩, r)

/-- A `ResourceNameLookup` is representable. -/
def ResourceNameLookup.wf (x : ResourceNameLookup) : Bool :=
  x.appId.wf && strWF x.name

theorem ResourceNameLookup_read_write (x : ResourceNameLookup)
    (r : List Nat) (h : x.wf = true) :
    ResourceNameLookup.read (ResourceNameLookup.write x ++ r) = some (x, r) := by
  obtain ⟨a, n⟩ := x
  simp only [ResourceNameLookup.wf, Bool.and_eq_true] at h
  simp [ResourceNameLookup.write, ResourceNameLookup.read, pbind,
    List.append_assoc, Id_read_write a _ h.1, readByteSeq_append_wf n r h.2]

/-- Serialize an `EntityLookup`. -/
def EntityLookup.write : EntityLookup → List Nat
  | .key k => writeTag 0 ++ EntityKey.write k
  | .name n => writeTag 1 ++ ResourceNameLookup.write n

/-- Parse an `EntityLookup`. -/
def EntityLookup.read : List Nat → Option (EntityLookup × List Nat) :=
  pbind (readNatLE 4) fun t =>
    if t = 0 then pbind EntityKey.read fun k r => some (.key k, r)
    else if t = 1 then
      pbind ResourceNameLookup.read fun n r => some (.name n, r)
    else fun _ => none

/-- An `EntityLookup` is representable. -/
def EntityLookup.wf : EntityLookup → Bool
  | .key k => k.wf
  | .name n => n.wf

theorem EntityLookup_read_write (x : EntityLookup) (r : List Nat)
    (h : x.wf = true) :
    EntityLookup.read (EntityLookup.write x ++ r) = some (x, r) := by
  cases x with
  | key k =>
    simp only [EntityLookup.wf] at h
    simp [EntityLookup.write, EntityLookup.read, pbind, List.append_assoc,
      readTag_append 0 _ (by norm_num), EntityKey_read_write k r h]
  | name n =>
    simp only [EntityLookup.wf] at h
    simp [EntityLookup.write, EntityLookup.read, pbind, List.append_assoc,
      readTag_append 1 _ (by norm_num), ResourceNameLookup_read_write n r h]

/-- Serialize an `EntityRequestLocation`. -/
def EntityRequestLocation.write (x : EntityRequestLocation) : List Nat :=
  EntityLookup.write x.lookup

/-- Parse an `EntityRequestLocation`. -/
def EntityRequestLocation.read :
    List Nat → Option (EntityRequestLocation × List Nat) :=
  pbind EntityLookup.read fun l r => some (⟨l⟩, r)

/-- An `EntityRequestLocation` is representable. -/
def EntityRequestLocation.wf (x : EntityRequestLocation) : Bool :=
  x.lookup.wf

theorem EntityRequestLocation_read_write (x : EntityRequestLocation)
    (r : List Nat) (h : x.wf = true) :
    EntityRequestLocation.read (EntityRequestLocation.write x ++ r) =
      some (x, r) := by
  obtain ⟨l⟩ := x
  simp [EntityRequestLocation.write, EntityRequestLocation.read, pbind,
    EntityLookup_read_write l r h]

/-- Serialize an `EntityFrom`. -/
def EntityFrom.write (x : EntityFrom) : List Nat :=
  EntityKey.write x.key ++ writeOptionWith writeByteSeq x.source

/-- Parse an `EntityFrom`. -/
def EntityFrom.read : List Nat → Option (EntityFrom × List Nat) :=
  pbind EntityKey.read fun k =>
    pbind (readOptionWith readByteSeq) fun s r => some (⟨k, s⟩, r)

/-- An `EntityFrom` is representable. -/
def EntityFrom.wf (x : EntityFrom) : Bool :=
  x.key.wf && (match x.source with | none => true | some s => strWF s)

theorem EntityFrom_read_write (x : EntityFrom) (r : List Nat)
    (h : x.wf = true) :
    EntityFrom.read (EntityFrom.write x ++ r) = some (x, r) := by
  obtain ⟨k, s⟩ := x
  simp only [EntityFrom.wf, Bool.and_eq_true] at h
  have hopt := readOptionWith_append readByteSeq writeByteSeq s r
    (fun y hy u => readByteSeq_append_wf y u (by
      cases s with
      | none => cases hy
      | some z => cases hy; exact h.2))
  simp [EntityFrom.write, EntityFrom.read, pbind, List.append_assoc,
    EntityKey_read_write k _ h.1, hopt]

/-- Serialize an `EntityFromKind`. -/
def EntityFromKind.write : EntityFromKind → List Nat
  | .entity e => writeTag 0 ++ EntityFrom.write e
  | .user u => writeTag 1 ++ User.write u

/-- Parse an `EntityFromKind`. -/
def EntityFromKind.read : List Nat → Option (EntityFromKind × List Nat) :=
  pbind (readNatLE 4) fun t =>
    if t = 0 then pbind EntityFrom.read fun e r => some (.entity e, r)
    else if t = 1 then pbind User.read fun u r => some (.user u, r)
    else fun _ => none

/-- An `EntityFromKind` is representable. -/
def EntityFromKind.wf : EntityFromKind → Bool
  | .entity e => e.wf
  | .user u => u.wf

theorem EntityFromKind_read_write (x : EntityFromKind) (r : List Nat)
    (h : x.wf = true) :
    EntityFromKind.read (EntityFromKind.write x ++ r) = some (x, r) := by
  cases x with
  | entity e =>
    simp only [EntityFromKind.wf] at h
    simp [EntityFromKind.write, EntityFromKind.read, pbind,
      List.append_assoc, readTag_append 0 _ (by norm_num),
      EntityFrom_read_write e r h]
  | user u =>
    simp only [EntityFromKind.wf] at h
    simp [EntityFromKind.write, EntityFromKind.read, pbind,
      List.append_assoc, readTag_append 1 _ (by norm_num),
      User_read_write u r h]

/-- Serialize an `EntityTo`. -/
def EntityTo.write (x : EntityTo) : List Nat :=
  EntityKey.write x.key ++ writeOptionWith writeByteSeq x.target

/-- Parse an `EntityTo`. -/
def EntityTo.read : List Nat → Option (EntityTo × List Nat) :=
  pbind EntityKey.read fun k =>
    pbind (readOptionWith readByteSeq) fun t r => some (⟨k, t⟩, r)

/-- An `EntityTo` is representable. -/
def EntityTo.wf (x : EntityTo) : Bool :=
  x.key.wf && (match x.target with | none => true | some t => strWF t)

theorem EntityTo_read_write (x : EntityTo) (r : List Nat)
    (h : x.wf = true) :
    EntityTo.read (EntityTo.write x ++ r) = some (x, r) := by
  obtain ⟨k, t⟩ := x
  simp only [EntityTo.wf, Bool.and_eq_true] at h
  have hopt := readOptionWith_append readByteSeq writeByteSeq t r
    (fun y hy u => readByteSeq_append_wf y u (by
      cases t with
      | none => cases hy
      | some z => cases hy; exact h.2))
  simp [EntityTo.write, EntityTo.read, pbind, List.append_assoc,
    EntityKey_read_write k _ h.1, hopt]

/-- Serialize an `EntityMessage` (field order of frame.rs lines 370-378). -/
def EntityMessage.write (x : EntityMessage) : List Nat :=
  Id.write x.id ++ EntityFromKind.write x.from_ ++ EntityTo.write x.to_ ++
    ResourcePayloads.write x.payloads ++ writeOptionWith Id.write x.transaction

/-- Parse an `EntityMessage`. -/
def EntityMessage.read : List Nat → Option (EntityMessage × List Nat) :=
  pbind Id.read fun i =>
    pbind EntityFromKind.read fun f =>
      pbind EntityTo.read fun t =>
        pbind ResourcePayloads.read fun p =>
          pbind (readOptionWith Id.read) fun tr r =>
            some (⟨i, f, t, p, tr⟩, r)

/-- An `EntityMessage` is representable. -/
def EntityMessage.wf (x : EntityMessage) : Bool :=
  x.id.wf && x.from_.wf && x.to_.wf && x.payloads.wf &&
    (match x.transaction with | none => true | some tr => tr.wf)

theorem EntityMessage_read_write (x : EntityMessage) (r : List Nat)
    (h : x.wf = true) :
    EntityMessage.read (EntityMessage.write x ++ r) = some (x, r) := by
  obtain ⟨i, f, t, p, tr⟩ := x
  simp only [EntityMessage.wf, Bool.and_eq_true] at h
  obtain ⟨⟨⟨⟨hi, hf⟩, ht⟩, hp⟩, htr⟩ := h
  have hopt := fun s => readOptionWith_append Id.read Id.write tr s
    (fun y hy u => Id_read_write y u (by
      cases tr with
      | none => cases hy
      | some z => cases hy; exact htr))
  simp [EntityMessage.write, EntityMessage.read, pbind, List.append_assoc,
    Id_read_write i _ hi, EntityFromKind_read_write f _ hf,
    EntityTo_read_write t _ ht, ResourcePayloads_read_write p _ hp, hopt]

/-- Serialize an `ApplicationCreateRequest`. -/
def ApplicationCreateRequest.write (x : ApplicationCreateRequest) : List Nat :=
  writeOptionWith writeByteSeq x.name ++ writeByteSeq x.kind ++
    writeByteSeq x.data

/-- Parse an `ApplicationCreateRequest`. -/
def ApplicationCreateRequest.read :
    List Nat → Option (ApplicationCreateRequest × List Nat) :=
  pbind (readOptionWith readByteSeq) fun n =>
    pbind readByteSeq fun k =>
      pbind readByteSeq fun d r => some (⟨n, k, d⟩, r)

/-- An `ApplicationCreateRequest` is representable. -/
def ApplicationCreateRequest.wf (x : ApplicationCreateRequest) : Bool :=
  (match x.name with | none => true | some n => strWF n) &&
    strWF x.kind && strWF x.data

theorem ApplicationCreateRequest_read_write (x : ApplicationCreateRequest)
    (r : List Nat) (h : x.wf = true) :
    ApplicationCreateRequest.read (ApplicationCreateRequest.write x ++ r) =
      some (x, r) := by
  obtain ⟨n, k, d⟩ := x
  simp only [ApplicationCreateRequest.wf, Bool.and_eq_true] at h
  obtain ⟨⟨hn, hk⟩, hd⟩ := h
  have hopt := fun s => readOptionWith_append readByteSeq writeByteSeq n s
    (fun y hy u => readByteSeq_append_wf y u (by
      cases n with
      | none => cases hy
      | some z => cases hy; exact hn))
  simp [ApplicationCreateRequest.write, ApplicationCreateRequest.read,
    pbind, List.append_assoc, hopt, readByteSeq_append_wf k _ hk,
    readByteSeq_append_wf d r hd]

/-- Serialize an `ApplicationAssign`. -/
def ApplicationAssign.write (x : ApplicationAssign) : List Nat :=
  AppInfo.write x.app ++ writeByteSeq x.data ++
    writeListWith StarKey.write x.notify ++ StarKey.write x.supervisor

/-- Parse an `ApplicationAssign`. -/
def ApplicationAssign.read :
    List Nat → Option (ApplicationAssign × List Nat) :=
  pbind AppInfo.read fun a =>
    pbind readByteSeq fun d =>
      pbind (readListWith StarKey.read) fun n =>
        pbind StarKey.read fun s r => some (⟨a, d, n, s⟩, r)

/-- An `ApplicationAssign` is representable. -/
def ApplicationAssign.wf (x : ApplicationAssign) : Bool :=
  x.app.wf && strWF x.data &&
    (x.notify.all StarKey.wf && u64WF x.notify.length) && x.supervisor.wf

theorem ApplicationAssign_read_write (x : ApplicationAssign) (r : List Nat)
    (h : x.wf = true) :
    ApplicationAssign.read (ApplicationAssign.write x ++ r) = some (x, r) := by
  obtain ⟨a, d, n, s⟩ := x
  simp only [ApplicationAssign.wf, Bool.and_eq_true, List.all_eq_true,
    u64WF, decide_eq_true_eq] at h
  obtain ⟨⟨⟨ha, hd⟩, hn⟩, hs⟩ := h
  have hlist := fun u => readListWith_append StarKey.read StarKey.write n u
    hn.2 (fun y hy v => StarKey_read_write y v (hn.1 y hy))
  simp [ApplicationAssign.write, ApplicationAssign.read, pbind,
    List.append_assoc, AppInfo_read_write a _ ha,
    readByteSeq_append_wf d _ hd, hlist, StarKey_read_write s r hs]

/-- Serialize an `ApplicationNotifyReady`. -/
def ApplicationNotifyReady.write (x : ApplicationNotifyReady) : List Nat :=
  AppLocation.write x.location

/-- Parse an `ApplicationNotifyReady`. -/
def ApplicationNotifyReady.read :
    List Nat → Option (ApplicationNotifyReady × List Nat) :=
  pbind AppLocation.read fun l r => some (⟨l⟩, r)

/-- An `ApplicationNotifyReady` is representable. -/
def ApplicationNotifyReady.wf (x : ApplicationNotifyReady) : Bool :=
  x.location.wf

theorem ApplicationNotifyReady_read_write (x : ApplicationNotifyReady)
    (r : List Nat) (h : x.wf = true) :
    ApplicationNotifyReady.read (ApplicationNotifyReady.write x ++ r) =
      some (x, r) := by
  obtain ⟨l⟩ := x
  simp [ApplicationNotifyReady.write, ApplicationNotifyReady.read, pbind,
    AppLocation_read_write l r h]

/-- Serialize an `ApplicationRequestSupervisor`. -/
def ApplicationRequestSupervisor.write
    (x : ApplicationRequestSupervisor) : List Nat :=
  Id.write x.app

/-- Parse an `ApplicationRequestSupervisor`. -/
def ApplicationRequestSupervisor.read :
    List Nat → Option (ApplicationRequestSupervisor × List Nat) :=
  pbind Id.read fun a r => some (⟨a⟩, r)

/-- An `ApplicationRequestSupervisor` is representable. -/
def ApplicationRequestSupervisor.wf (x : ApplicationRequestSupervisor) :
    Bool := x.app.wf

theorem ApplicationRequestSupervisor_read_write
    (x : ApplicationRequestSupervisor) (r : List Nat) (h : x.wf = true) :
    ApplicationRequestSupervisor.read
      (ApplicationRequestSupervisor.write x ++ r) = some (x, r) := by
  obtain ⟨a⟩ := x
  simp [ApplicationRequestSupervisor.write, ApplicationRequestSupervisor.read,
    pbind, Id_read_write a r h]

/-- Serialize an `ApplicationReportSupervisor`. -/
def ApplicationReportSupervisor.write
    (x : ApplicationReportSupervisor) : List Nat :=
  Id.write x.app ++ StarKey.write x.supervisor

/-- Parse an `ApplicationReportSupervisor`. -/
def ApplicationReportSupervisor.read :
    List Nat → Option (ApplicationReportSupervisor × List Nat) :=
  pbind Id.read fun a =>
    pbind StarKey.read fun s r => some (⟨a, s⟩, r)

/-- An `ApplicationReportSupervisor` is representable. -/
def ApplicationReportSupervisor.wf (x : ApplicationReportSupervisor) :
    Bool := x.app.wf && x.supervisor.wf

theorem ApplicationReportSupervisor_read_write
    (x : ApplicationReportSupervisor) (r : List Nat) (h : x.wf = true) :
    ApplicationReportSupervisor.read
      (ApplicationReportSupervisor.write x ++ r) = some (x, r) := by
  obtain ⟨a, s⟩ := x
  simp only [ApplicationReportSupervisor.wf, Bool.and_eq_true] at h
  simp [ApplicationReportSupervisor.write, ApplicationReportSupervisor.read,
    pbind, List.append_assoc, Id_read_write a _ h.1,
    StarKey_read_write s r h.2]

/-- Serialize an `ApplicationLookup`. -/
def ApplicationLookup.write (x : ApplicationLookup) : List Nat :=
  writeByteSeq x.name

/-- Parse an `ApplicationLookup`. -/
def ApplicationLookup.read :
    List Nat → Option (ApplicationLookup × List Nat) :=
  pbind readByteSeq fun n r => some (⟨n⟩, r)

/-- An `ApplicationLookup` is representable. -/
def ApplicationLookup.wf (x : ApplicationLookup) : Bool := strWF x.name

theorem ApplicationLookup_read_write (x : ApplicationLookup) (r : List Nat)
    (h : x.wf = true) :
    ApplicationLookup.read (ApplicationLookup.write x ++ r) = some (x, r) := by
  obtain ⟨n⟩ := x
  simp [ApplicationLookup.write, ApplicationLookup.read, pbind,
    readByteSeq_append_wf n r h]

/-- Serialize an `ApplicationRequestLaunch`. -/
def ApplicationRequestLaunch.write (x : ApplicationRequestLaunch) : List Nat :=
  Id.write x.appId ++ writeByteSeq x.data

/-- Parse an `ApplicationRequestLaunch`. -/
def ApplicationRequestLaunch.read :
    List Nat → Option (ApplicationRequestLaunch × List Nat) :=
  pbind Id.read fun a =>
    pbind readByteSeq fun d r => some (⟨a, d⟩, r)

/-- An `ApplicationRequestLaunch` is representable. -/
def ApplicationRequestLaunch.wf (x : ApplicationRequestLaunch) : Bool :=
  x.appId.wf && strWF x.data

theorem ApplicationRequestLaunch_read_write (x : ApplicationRequestLaunch)
    (r : List Nat) (h : x.wf = true) :
    ApplicationRequestLaunch.read (ApplicationRequestLaunch.write x ++ r) =
      some (x, r) := by
  obtain ⟨a, d⟩ := x
  simp only [ApplicationRequestLaunch.wf, Bool.and_eq_true] at h
  simp [ApplicationRequestLaunch.write, ApplicationRequestLaunch.read,
    pbind, List.append_assoc, Id_read_write a _ h.1,
    readByteSeq_append_wf d r h.2]

/-- Serialize a `StarMessagePayload` (variant order of frame.rs lines
226-244). -/
def StarMessagePayload.write : StarMessagePayload → List Nat
  | .reject x => writeTag 0 ++ Rejection.write x
  | .supervisorPledgeToCentral => writeTag 1
  | .applicationCreateRequest x => writeTag 2 ++ ApplicationCreateRequest.write x
  | .applicationAssign x => writeTag 3 ++ ApplicationAssign.write x
  | .applicationNotifyReady x => writeTag 4 ++ ApplicationNotifyReady.write x
  | .applicationRequestSupervisor x => writeTag 5 ++ ApplicationRequestSupervisor.write x
  | .applicationReportSupervisor x => writeTag 6 ++ ApplicationReportSupervisor.write x
  | .applicationLookup x => writeTag 7 ++ ApplicationLookup.write x
  | .applicationRequestLaunch x => writeTag 8 ++ ApplicationRequestLaunch.write x
  | .serverPledgeToSupervisor => writeTag 9
  | .entityStateRequest x => writeTag 10 ++ EntityKey.write x
  | .entityEvent x => writeTag 11 ++ EntityEvent.write x
  | .entityMessage x => writeTag 12 ++ EntityMessage.write x
  | .entityRequestLocation x => writeTag 13 ++ EntityRequestLocation.write x
  | .entityReportLocation x => writeTag 14 ++ EntityLocation.write x

/-- Parse a `StarMessagePayload`. -/
def StarMessagePayload.read :
    List Nat → Option (StarMessagePayload × List Nat) :=
  pbind (readNatLE 4) fun t =>
    if t = 0 then pbind Rejection.read fun x r => some (.reject x, r)
    else if t = 1 then fun r => some (.supervisorPledgeToCentral, r)
    else if t = 2 then
      pbind ApplicationCreateRequest.read fun x r =>
        some (.applicationCreateRequest x, r)
    else if t = 3 then
      pbind ApplicationAssign.read fun x r => some (.applicationAssign x, r)
    else if t = 4 then
      pbind ApplicationNotifyReady.read fun x r =>
        some (.applicationNotifyReady x, r)
    else if t = 5 then
      pbind ApplicationRequestSupervisor.read fun x r =>
        some (.applicationRequestSupervisor x, r)
    else if t = 6 then
      pbind ApplicationReportSupervisor.read fun x r =>
        some (.applicationReportSupervisor x, r)
    else if t = 7 then
      pbind ApplicationLookup.read fun x r => some (.applicationLookup x, r)
    else if t = 8 then
      pbind ApplicationRequestLaunch.read fun x r =>
        some (.applicationRequestLaunch x, r)
    else if t = 9 then fun r => some (.serverPledgeToSupervisor, r)
    else if t = 10 then
      pbind EntityKey.read fun x r => some (.entityStateRequest x, r)
    else if t = 11 then
      pbind EntityEvent.read fun x r => some (.entityEvent x, r)
    else if t = 12 then
      pbind EntityMessage.read fun x r => some (.entityMessage x, r)
    else if t = 13 then
      pbind EntityRequestLocation.read fun x r =>
        some (.entityRequestLocation x, r)
    else if t = 14 then
      pbind EntityLocation.read fun x r => some (.entityReportLocation x, r)
    else fun _ => none

/-- A `StarMessagePayload` is representable. -/
def StarMessagePayload.wf : StarMessagePayload → Bool
  | .reject x => x.wf
  | .supervisorPledgeToCentral => true
  | .applicationCreateRequest x => x.wf
  | .applicationAssign x => x.wf
  | .applicationNotifyReady x => x.wf
  | .applicationRequestSupervisor x => x.wf
  | .applicationReportSupervisor x => x.wf
  | .applicationLookup x => x.wf
  | .applicationRequestLaunch x => x.wf
  | .serverPledgeToSupervisor => true
  | .entityStateRequest x => x.wf
  | .entityEvent x => x.wf
  | .entityMessage x => x.wf
  | .entityRequestLocation x => x.wf
  | .entityReportLocation x => x.wf

theorem StarMessagePayload_read_write (x : StarMessagePayload)
    (r : List Nat) (h : x.wf = true) :
    StarMessagePayload.read (StarMessagePayload.write x ++ r) =
      some (x, r) := by
  cases x with
  | reject x =>
    simp only [StarMessagePayload.wf] at h
    simp [StarMessagePayload.write, StarMessagePayload.read, pbind,
      List.append_assoc, readTag_append 0 _ (by norm_num),
      Rejection_read_write x r h]
  | supervisorPledgeToCentral =>
    simp [StarMessagePayload.write, StarMessagePayload.read, pbind,
      readTag_append 1 _ (by norm_num)]
  | applicationCreateRequest x =>
    simp only [StarMessagePayload.wf] at h
    simp [StarMessagePayload.write, StarMessagePayload.read, pbind,
      List.append_assoc, readTag_append 2 _ (by norm_num),
      ApplicationCreateRequest_read_write x r h]
  | applicationAssign x =>
    simp only [StarMessagePayload.wf] at h
    simp [StarMessagePayload.write, StarMessagePayload.read, pbind,
      List.append_assoc, readTag_append 3 _ (by norm_num),
      ApplicationAssign_read_write x r h]
  | applicationNotifyReady x =>
    simp only [StarMessagePayload.wf] at h
    simp [StarMessagePayload.write, StarMessagePayload.read, pbind,
      List.append_assoc, readTag_append 4 _ (by norm_num),
      ApplicationNotifyReady_read_write x r h]
  | applicationRequestSupervisor x =>
    simp only [StarMessagePayload.wf] at h
    simp [StarMessagePayload.write, StarMessagePayload.read, pbind,
      List.append_assoc, readTag_append 5 _ (by norm_num),
      ApplicationRequestSupervisor_read_write x r h]
  | applicationReportSupervisor x =>
    simp only [StarMessagePayload.wf] at h
    simp [StarMessagePayload.write, StarMessagePayload.read, pbind,
      List.append_assoc, readTag_append 6 _ (by norm_num),
      ApplicationReportSupervisor_read_write x r h]
  | applicationLookup x =>
    simp only [StarMessagePayload.wf] at h
    simp [StarMessagePayload.write, StarMessagePayload.read, pbind,
      List.append_assoc, readTag_append 7 _ (by norm_num),
      ApplicationLookup_read_write x r h]
  | applicationRequestLaunch x =>
    simp only [StarMessagePayload.wf] at h
    simp [StarMessagePayload.write, StarMessagePayload.read, pbind,
      List.append_assoc, readTag_append 8 _ (by norm_num),
      ApplicationRequestLaunch_read_write x r h]
  | serverPledgeToSupervisor =>
    simp [StarMessagePayload.write, StarMessagePayload.read, pbind,
      readTag_append 9 _ (by norm_num)]
  | entityStateRequest x =>
    simp only [StarMessagePayload.wf] at h
    simp [StarMessagePayload.write, StarMessagePayload.read, pbind,
      List.append_assoc, readTag_append 10 _ (by norm_num),
      EntityKey_read_write x r h]
  | entityEvent x =>
    simp only [StarMessagePayload.wf] at h
    simp [StarMessagePayload.write, StarMessagePayload.read, pbind,
      List.append_assoc, readTag_append 11 _ (by norm_num),
      EntityEvent_read_write x r h]
  | entityMessage x =>
    simp only [StarMessagePayload.wf] at h
    simp [StarMessagePayload.write, StarMessagePayload.read, pbind,
      List.append_assoc, readTag_append 12 _ (by norm_num),
      EntityMessage_read_write x r h]
  | entityRequestLocation x =>
    simp only [StarMessagePayload.wf] at h
    simp [StarMessagePayload.write, StarMessagePayload.read, pbind,
      List.append_assoc, readTag_append 13 _ (by norm_num),
      EntityRequestLocation_read_write x r h]
  | entityReportLocation x =>
    simp only [StarMessagePayload.wf] at h
    simp [StarMessagePayload.write, StarMessagePayload.read, pbind,
      List.append_assoc, readTag_append 14 _ (by norm_num),
      EntityLocation_read_write x r h]

/-- Serialize a `StarMessage` (field order of frame.rs lines 169-179). -/
def StarMessage.write (x : StarMessage) : List Nat :=
  StarKey.write x.from_ ++ StarKey.write x.to_ ++ Id.write x.id ++
    writeOptionWith Id.write x.transaction ++
    StarMessagePayload.write x.payload ++
    natToBytesLE 8 x.retry ++ natToBytesLE 8 x.maxRetries

/-- Parse a `StarMessage`. -/
def StarMessage.read : List Nat → Option (StarMessage × List Nat) :=
  pbind StarKey.read fun f =>
    pbind StarKey.read fun t =>
      pbind Id.read fun i =>
        pbind (readOptionWith Id.read) fun tr =>
          pbind StarMessagePayload.read fun p =>
            pbind (readNatLE 8) fun re =>
              pbind (readNatLE 8) fun mr r =>
                some (⟨f, t, i, tr, p, re, mr⟩, r)

/-- A `StarMessage` is representable. -/
def StarMessage.wf (x : StarMessage) : Bool :=
  x.from_.wf && x.to_.wf && x.id.wf &&
    (match x.transaction with | none => true | some tr => tr.wf) &&
    x.payload.wf && u64WF x.retry && u64WF x.maxRetries

theorem StarMessage_read_write (x : StarMessage) (r : List Nat)
    (h : x.wf = true) :
    StarMessage.read (StarMessage.write x ++ r) = some (x, r) := by
  obtain ⟨f, t, i, tr, p, re, mr⟩ := x
  simp only [StarMessage.wf, Bool.and_eq_true] at h
  obtain ⟨⟨⟨⟨⟨⟨hf, ht⟩, hi⟩, htr⟩, hp⟩, hre⟩, hmr⟩ := h
  have hopt := fun s => readOptionWith_append Id.read Id.write tr s
    (fun y hy u => Id_read_write y u (by
      cases tr with
      | none => cases hy
      | some z => cases hy; exact htr))
  simp [StarMessage.write, StarMessage.read, pbind, List.append_assoc,
    StarKey_read_write f _ hf, StarKey_read_write t _ ht,
    Id_read_write i _ hi, hopt, StarMessagePayload_read_write p _ hp,
    readNatLE8_append re _ hre, readNatLE8_append mr r hmr]

/-- Serialize a `Frame` with the wire codec used by `FrameCodex`
(bincode; variant order of frame.rs lines 30-44). -/
def Frame.write : Frame → List Nat
  | .close => writeTag 0
  | .proto p => writeTag 1 ++ ProtoFrame.write p
  | .diagnose d => writeTag 2 ++ FrameDiagnose.write d
  | .starSearch s => writeTag 3 ++ StarSearch.write s
  | .starSearchResult s => writeTag 4 ++ StarSearchResult.write s
  | .starMessage m => writeTag 5 ++ StarMessage.write m
  | .starAck a => writeTag 6 ++ StarAck.write a
  | .starWind w => writeTag 7 ++ StarWind.write w
  | .starUnwind u => writeTag 8 ++ StarUnwind.write u
  | .watch w => writeTag 9 ++ Watch.write w
  | .entityEvent e => writeTag 10 ++ EntityEvent.write e

/-- Parse a `Frame`. -/
def Frame.read : List Nat → Option (Frame × List Nat) :=
  pbind (readNatLE 4) fun t =>
    if t = 0 then fun r => some (.close, r)
    else if t = 1 then pbind ProtoFrame.read fun p r => some (.proto p, r)
    else if t = 2 then
      pbind FrameDiagnose.read fun d r => some (.diagnose d, r)
    else if t = 3 then
      pbind StarSearch.read fun s r => some (.starSearch s, r)
    else if t = 4 then
      pbind StarSearchResult.read fun s r => some (.starSearchResult s, r)
    else if t = 5 then
      pbind StarMessage.read fun m r => some (.starMessage m, r)
    else if t = 6 then pbind StarAck.read fun a r => some (.starAck a, r)
    else if t = 7 then pbind StarWind.read fun w r => some (.starWind w, r)
    else if t = 8 then
      pbind StarUnwind.read fun u r => some (.starUnwind u, r)
    else if t = 9 then pbind Watch.read fun w r => some (.watch w, r)
    else if t = 10 then
      pbind EntityEvent.read fun e r => some (.entityEvent e, r)
    else fun _ => none

/-- A `Frame` is representable as a Rust value (every machine-integer
field, vector length and string is in range for its Rust type). -/
def Frame.wf : Frame → Bool
  | .close => true
  | .proto p => p.wf
  | .diagnose _ => true
  | .starSearch s => s.wf
  | .starSearchResult s => s.wf
  | .starMessage m => m.wf
  | .starAck a => a.wf
  | .starWind w => w.wf
  | .starUnwind u => u.wf
  | .watch w => w.wf
  | .entityEvent e => e.wf

theorem Frame_read_write (x : Frame) (r : List Nat) (h : x.wf = true) :
    Frame.read (Frame.write x ++ r) = some (x, r) := by
  cases x with
  | close =>
    simp [Frame.write, Frame.read, pbind, readTag_append 0 _ (by norm_num)]
  | proto p =>
    simp only [Frame.wf] at h
    simp [Frame.write, Frame.read, pbind, List.append_assoc,
      readTag_append 1 _ (by norm_num), ProtoFrame_read_write p r h]
  | diagnose d =>
    simp [Frame.write, Frame.read, pbind, List.append_assoc,
      readTag_append 2 _ (by norm_num), FrameDiagnose_read_write d r]
  | starSearch s =>
    simp only [Frame.wf] at h
    simp [Frame.write, Frame.read, pbind, List.append_assoc,
      readTag_append 3 _ (by norm_num), StarSearch_read_write s r h]
  | starSearchResult s =>
    simp only [Frame.wf] at h
    simp [Frame.write, Frame.read, pbind, List.append_assoc,
      readTag_append 4 _ (by norm_num), StarSearchResult_read_write s r h]
  | starMessage m =>
    simp only [Frame.wf] at h
    simp [Frame.write, Frame.read, pbind, List.append_assoc,
      readTag_append 5 _ (by norm_num), StarMessage_read_write m r h]
  | starAck a =>
    simp only [Frame.wf] at h
    simp [Frame.write, Frame.read, pbind, List.append_assoc,
      readTag_append 6 _ (by norm_num), StarAck_read_write a r h]
  | starWind w =>
    simp only [Frame.wf] at h
    simp [Frame.write, Frame.read, pbind, List.append_assoc,
      readTag_append 7 _ (by norm_num), StarWind_read_write w r h]
  | starUnwind u =>
    simp only [Frame.wf] at h
    simp [Frame.write, Frame.read, pbind, List.append_assoc,
      readTag_append 8 _ (by norm_num), StarUnwind_read_write u r h]
  | watch w =>
    simp only [Frame.wf] at h
    simp [Frame.write, Frame.read, pbind, List.append_assoc,
      readTag_append 9 _ (by norm_num), Watch_read_write w r h]
  | entityEvent e =>
    simp only [Frame.wf] at h
    simp [Frame.write, Frame.read, pbind, List.append_assoc,
      readTag_append 10 _ (by norm_num), EntityEvent_read_write e r h]

/-- Rust `bincode::serialize` as used by `FrameCodex::send`
(src/rust/starlane-core/src/lane.rs line 774): the byte payload written
after the `u32` length prefix. -/
def serializeFrame (f : Frame) : List Nat := Frame.write f

/-- Rust `bincode::deserialize` as used by `FrameCodex::receive`
(src/rust/starlane-core/src/lane.rs line 768): parse a frame from the
received byte payload. -/
def deserializeFrame (bs : List Nat) : Option Frame :=
  match Frame.read bs with
  | some (f, _) => some f
  | none => none

/-! ## Lane hop caches

`LaneMeta` (src/rust/starlane-core/src/lane.rs lines 652-701): a lane
endpoint plus its `star_paths: LruCache<StarKey, usize>` hop cache.  The
LRU cache is modelled as an association list in recency order; `put`
moves the key to the front and truncates to the capacity `32 * 1024`. -/

/-- Look up a key in an association-list cache. -/
def assocLookup : List (StarKey × Nat) → StarKey → Option Nat
  | [], _ => none
  | (k, v) :: t, s => if k = s then some v else assocLookup t s

/-- Rust `LruCache::put`: insert/overwrite, moving the entry to the
most-recently-used position and evicting beyond the capacity. -/
def lruPut (star : StarKey) (hops : Nat) (c : List (StarKey × Nat)) :
    List (StarKey × Nat) :=
  ((star, hops) :: c.filter (fun p => !(p.1 = star : Bool))).take (32 * 1024)

/-- Rust `LaneMeta`: the lane's confirmed remote star (if any) plus its hop
cache.  Only the routing-relevant fields are modelled; the queue handles
of the endpoint live in the `LaneMiddle` model below. -/
structure LaneMeta where
  remote_star : Option StarKey
  star_paths : List (StarKey × Nat)
  deriving DecidableEq, Repr

/-- Rust `LaneMeta::get_hops_to_star` (lane.rs lines 688-696): `Some(1)` when
the target is this lane's own remote star, else a cache lookup. -/
def LaneMeta.get_hops_to_star (m : LaneMeta) (star : StarKey) : Option Nat :=
  if m.remote_star = some star then some 1
  else assocLookup m.star_paths star

/-- Rust `LaneMeta::set_hops_to_star` (lane.rs lines 698-700). -/
def LaneMeta.set_hops_to_star (m : LaneMeta) (star : StarKey) (hops : Nat) :
    LaneMeta :=
  { m with star_paths := lruPut star hops m.star_paths }

/-! ## ProtoStar routing

`ProtoStar` (src/rust/starlane/src/proto.rs).  The `lanes:
HashMap<StarKey, LaneMeta>` is modelled as an association list whose
order is the hash map's (arbitrary) iteration order; `frame_hold` as the
list of held `(star, frame)` pairs.  Sending a frame on a lane's
outgoing queue is recorded as a `SendEvent`. -/

/-- Rust `usize::MAX`, the initial value of `min_hops` in
`ProtoStar::lane_with_shortest_path_to_star`. -/
def usizeMAX : Nat := 2 ^ 64 - 1

/-- The observable effect of one `send_frame` call: either the frame was
queued on the lane keyed by `laneKey`, or it was added to `frame_hold`. -/
inductive SendEvent where
  | sent (laneKey : StarKey) (frame : Frame)
  | held (star : StarKey) (frame : Frame)
  deriving DecidableEq, Repr

/-- The routing-relevant state of a `ProtoStar`. -/
structure ProtoStarState where
  star_key : Option StarKey
  lanes : List (StarKey × LaneMeta)
  frame_hold : List (StarKey × Frame)
  deriving DecidableEq, Repr

/-- Rust `ProtoStar::lane_with_shortest_path_to_star` (proto.rs lines
399-416), translated exactly: `min_hops` starts at `usize::MAX`, each
lane reporting `hops < min_hops` replaces the running result, and —
as in the source — `min_hops` is never updated afterwards. -/
def lane_with_shortest_path_to_star (lanes : List (StarKey × LaneMeta))
    (star : StarKey) : Option (StarKey × LaneMeta) :=
  (lanes.foldl
    (fun (acc : Nat × Option (StarKey × LaneMeta)) kl =>
      match kl.2.get_hops_to_star star with
      | some hops => if hops < acc.1 then (acc.1, some kl) else acc
      | none => acc)
    (usizeMAX, none)).2

/-- Rust `ProtoStar::get_hops_to_star` (proto.rs lines 453-476): the minimum
hop count reported by any lane. -/
def ProtoStar.get_hops_to_star (lanes : List (StarKey × LaneMeta))
    (star : StarKey) : Option Nat :=
  lanes.foldl
    (fun acc kl =>
      match kl.2.get_hops_to_star star with
      | some hops =>
        match acc with
        | none => some hops
        | some minHops => if hops < minHops then some hops else acc
      | none => acc)
    none

/-- Rust `ProtoStar::send_frame` (proto.rs lines 387-397): route via
`lane_with_shortest_path_to_star`; hold the frame when no lane has a
path. -/
def send_frame (s : ProtoStarState) (star : StarKey) (frame : Frame) :
    ProtoStarState × List SendEvent :=
  match lane_with_shortest_path_to_star s.lanes star with
  | some (laneKey, _) => (s, [.sent laneKey frame])
  | none =>
    ({ s with frame_hold := s.frame_hold ++ [(star, frame)] },
      [.held star frame])

/-- Fold `send_frame` over target stars, accumulating events in order. -/
def sendFrames (s : ProtoStarState) (targets : List StarKey) (frame : Frame) :
    ProtoStarState × List SendEvent :=
  match targets with
  | [] => (s, [])
  | star :: rest =>
    ((sendFrames (send_frame s star frame).1 rest frame).1,
      (send_frame s star frame).2 ++
        (sendFrames (send_frame s star frame).1 rest frame).2)

/-- Rust `ProtoStar::broadcast` (proto.rs lines 326-340): snapshot the lane
keys, drop the excluded ones, then `send_frame` toward each remaining
star in order. -/
def ProtoStar.broadcast (s : ProtoStarState) (frame : Frame)
    (exclude : List StarKey) : ProtoStarState × List SendEvent :=
  sendFrames s ((s.lanes.map Prod.fst).filter (fun k => !(k ∈ exclude : Bool)))
    frame

/-- Replace the `LaneMeta` stored under `laneKey`. -/
def updateLane (lanes : List (StarKey × LaneMeta)) (laneKey : StarKey)
    (f : LaneMeta → LaneMeta) : List (StarKey × LaneMeta) :=
  lanes.map (fun kl => if kl.1 = laneKey then (kl.1, f kl.2) else kl)

/-- Look up the `LaneMeta` stored under a key. -/
def lookupLane : List (StarKey × LaneMeta) → StarKey → Option LaneMeta
  | [], _ => none
  | (k, m) :: t, s => if k = s then some m else lookupLane t s

/-- Rust `lane.star_paths.insert(StarKey::central(), hops)` applied to one
lane's meta (proto.rs line 163). -/
def bumpCentral (hops : Nat) (m : LaneMeta) : LaneMeta :=
  { m with star_paths := lruPut StarKey.central hops m.star_paths }

/-- The `CentralFound` branch of `ProtoStar::evolve` (proto.rs lines
154-170): record `hops` for Central in the arrival lane's `star_paths`,
then broadcast `CentralFound(hops + 1)` excluding the arrival lane's
key.  (The branch then issues `send_sequence_request()`, which sends a
`StarMessage` frame, not a `CentralFound`; it is outside this model.) -/
def handleCentralFound (s : ProtoStarState) (laneKey : StarKey)
    (hops : Nat) : ProtoStarState × List SendEvent :=
  ProtoStar.broadcast
    { s with lanes := updateLane s.lanes laneKey (bumpCentral hops) }
    (Frame.proto (ProtoFrame.centralFound (hops + 1))) [laneKey]

/-! ## Lane middle loop

`LaneMiddle::run` (src/rust/starlane-core/src/lane.rs lines 97-126): a
loop over `LaneCommand`s.  Attached tunnels are identified by a numeric
id; the frames pushed onto a tunnel's outbound queue are recorded as
`(tunnelId, frame)` events in push order. -/

/-- Rust `LaneCommand` (lane.rs lines 131-135).  `Tunnel(TunnelOutState)`
carries `some id` for `TunnelOutState::Out` and `none` for
`TunnelOutState::None`. -/
inductive LaneCommand where
  | tunnel (t : Option Nat)
  | frame (f : Frame)
  | shutdown
  deriving DecidableEq, Repr

/-- The mutable state of `LaneMiddle`: the current tunnel (by id) and
the buffered outbound queue. -/
structure MidState where
  tunnel : Option Nat
  queue : List Frame
  deriving DecidableEq, Repr

/-- Rust `LaneMiddle::run`, as a fold over the received command list.
Returns the final state and the pushes onto tunnel queues, in order:

* `Tunnel(Out t)`: drain the buffered queue into `t`, then install it;
  `Tunnel(None)`: just detach (the buffer is kept);
* `Frame f`: push to the current tunnel, else buffer;
* `Shutdown`: send `Frame::Close` to the current tunnel if attached,
  close the command queue and break (remaining commands are dropped). -/
def runMid : MidState → List LaneCommand → MidState × List (Nat × Frame)
  | st, [] => (st, [])
  | st, .tunnel (some tid) :: rest =>
    ((runMid ⟨some tid, []⟩ rest).1,
      st.queue.map (fun f => (tid, f)) ++ (runMid ⟨some tid, []⟩ rest).2)
  | st, .tunnel none :: rest => runMid ⟨none, st.queue⟩ rest
  | st, .frame f :: rest =>
    match st.tunnel with
    | some tid => ((runMid st rest).1, (tid, f) :: (runMid st rest).2)
    | none => runMid ⟨none, st.queue ++ [f]⟩ rest
  | st, .shutdown :: _ =>
    (st, match st.tunnel with
      | some tid => [(tid, Frame.close)]
      | none => [])

/-! ## ProtoTunnel handshake

`ProtoTunnel::evolve` (src/rust/starlane/src/proto.rs lines 550-599).
The `rx` channel is modelled as the list of frames the peer side makes
available, in order; an exhausted list is a closed channel (`recv()`
returning `None`).  `STARLANE_PROTOCOL_VERSION` is a per-build constant
(src/rust/starlane-core/src/lane.rs line 36); `evolve` is parameterized
by this side's build constant so that peers built with different
versions can be modelled. -/

/-- Rust `STARLANE_PROTOCOL_VERSION` (lane.rs line 36). -/
def STARLANE_PROTOCOL_VERSION : Int := 1

/-- Handshake failure classes.  `evolve` returns a string-message
`Error`; the constructors stand for the three message families it
produces: `"wrong version: {v}"`, `"unexpected star gram: ..."` and
`"disconnected"` / `"disconnected!"`. -/
inductive HandshakeError where
  | versionMismatch (version : Int)
  | unexpectedFrame
  | disconnected
  deriving DecidableEq, Repr

/-- Rust `TunnelSender` (identity-relevant fields). -/
structure TunnelSender where
  remote_star : StarKey
  deriving DecidableEq, Repr

/-- Rust `TunnelReceiver`: the confirmed remote identity plus the frames left
on `rx` after the handshake. -/
structure TunnelReceiver where
  remote_star : StarKey
  rx : List Frame
  deriving DecidableEq, Repr

/-- The frames `evolve` sends before receiving anything (proto.rs lines
552-557): the version frame, then `ReportStarKey` when this side knows
its own key. -/
def evolveSends (version : Int) (star : Option StarKey) : List Frame :=
  Frame.proto (ProtoFrame.starLaneProtocolVersion version) ::
    (match star with
     | some s => [Frame.proto (ProtoFrame.reportStarKey s)]
     | none => [])

/-- The receive phase of `ProtoTunnel::evolve` (proto.rs lines 559-598),
over the list of frames available on `rx`.  Note the Rust
`if let Some(Frame::Proto(recv)) = rx.recv().await` pattern: a received
frame that is not a `Proto` frame falls into the `else` branch and
yields the `"disconnected"` error, exactly like a closed channel. -/
def evolveRecv (version : Int) (incoming : List Frame) :
    Except HandshakeError (StarKey × List Frame) :=
  match incoming with
  | Frame.proto recv :: rest =>
    match recv with
    | ProtoFrame.starLaneProtocolVersion v =>
      if v = version then
        match rest with
        | Frame.proto recv2 :: rest2 =>
          match recv2 with
          | ProtoFrame.reportStarKey remote => Except.ok (remote, rest2)
          | _ => Except.error HandshakeError.unexpectedFrame
        | _ :: _ => Except.error HandshakeError.disconnected
        | [] => Except.error HandshakeError.disconnected
      else Except.error (HandshakeError.versionMismatch v)
    | _ => Except.error HandshakeError.unexpectedFrame
  | _ :: _ => Except.error HandshakeError.disconnected
  | [] => Except.error HandshakeError.disconnected

/-- Rust `ProtoTunnel::evolve` of one side: what it sends, and the tunnel
pair it produces from what it receives. -/
def ProtoTunnel.evolve (version : Int) (star : Option StarKey)
    (incoming : List Frame) :
    List Frame × Except HandshakeError (TunnelSender × TunnelReceiver) :=
  (evolveSends version star,
    match evolveRecv version incoming with
    | Except.ok (remote, rest) => Except.ok (⟨remote⟩, ⟨remote, rest⟩)
    | Except.error e => Except.error e)

/-- Rust `local_tunnels(high, low)` (proto.rs lines 604-620) followed by
`evolve()` on both ends.  The two channels have capacity 32, so both
sides' sends (at most two frames) complete before either receive; the
concurrent run therefore linearizes as: both sides send, then each side
receives the other's sent frames in order. -/
def local_tunnels_evolve (high low : Option StarKey) :
    Except HandshakeError (TunnelSender × TunnelReceiver) ×
      Except HandshakeError (TunnelSender × TunnelReceiver) :=
  ((ProtoTunnel.evolve STARLANE_PROTOCOL_VERSION high
      (evolveSends STARLANE_PROTOCOL_VERSION low)).2,
   (ProtoTunnel.evolve STARLANE_PROTOCOL_VERSION low
      (evolveSends STARLANE_PROTOCOL_VERSION high)).2)

/-! ## ProtoTracker

`ProtoTracker` (src/rust/starlane/src/proto.rs lines 622-701): the
single-slot retry tracker.  `check()` sleeps until 5 seconds have
elapsed since the case's timer, then increments `retries`, resets the
timer and yields a `FrameTimeout`; one completed `check()` therefore
corresponds to one elapsed timeout interval with no matching frame, and
is modelled as the discrete `TrackerOp.check` event. -/

/-- Rust `FrameTimeoutInner`: the timed-out frame and the retry count. -/
structure FrameTimeoutInner where
  frame : Frame
  retries : Nat
  deriving DecidableEq, Repr

/-- Rust `ProtoTrackerCase` (proto.rs lines 622-628; the `Instant` timer is
abstracted into the discrete `check` events). -/
structure ProtoTrackerCase where
  frame : Frame
  expect : Frame → Bool
  retries : Nat

/-- Rust `ProtoTracker` (proto.rs lines 638-641). -/
structure ProtoTracker where
  case : Option ProtoTrackerCase

/-- Rust `ProtoTracker::track` (proto.rs lines 652-660): install a fresh
case, overwriting any previous one. -/
def ProtoTracker.track (_t : ProtoTracker) (frame : Frame)
    (expect : Frame → Bool) : ProtoTracker :=
  ⟨some ⟨frame, expect, 0⟩⟩

/-- Rust `ProtoTracker::process` (proto.rs lines 662-672): clear the slot
when the incoming frame satisfies the expectation. -/
def ProtoTracker.process (t : ProtoTracker) (frame : Frame) : ProtoTracker :=
  match t.case with
  | some c => if c.expect frame then ⟨none⟩ else t
  | none => t

/-- Rust `ProtoTracker::has_expectation` (proto.rs lines 674-677). -/
def ProtoTracker.has_expectation (t : ProtoTracker) : Bool :=
  t.case.isSome

/-- Rust `ProtoTracker::check` (proto.rs lines 679-700), at the moment its
timed wait completes: increment `retries`, reset the timer and yield
`FrameTimeout { frame, retries }`. -/
def ProtoTracker.check (t : ProtoTracker) :
    ProtoTracker × Option FrameTimeoutInner :=
  match t.case with
  | some c =>
    (⟨some ⟨c.frame, c.expect, c.retries + 1⟩⟩,
      some ⟨c.frame, c.retries + 1⟩)
  | none => (t, none)

/-- One event consumed by the tracker: a completed timeout interval, or
an incoming frame run through `process`. -/
inductive TrackerOp where
  | check
  | process (f : Frame)

/-- Run the tracker over a sequence of events, collecting the
`FrameTimeout`s it emits, in order. -/
def runTracker (t : ProtoTracker) : List TrackerOp →
    ProtoTracker × List FrameTimeoutInner
  | [] => (t, [])
  | TrackerOp.check :: rest =>
    ((runTracker t.check.1 rest).1,
      match t.check.2 with
      | some e => e :: (runTracker t.check.1 rest).2
      | none => (runTracker t.check.1 rest).2)
  | TrackerOp.process f :: rest => runTracker (t.process f) rest

/-! ## Connector reconnect loops

src/rust/starlane-core/src/lane.rs lines 414-645.  A connector run is
modelled as a fold over the outcomes of its successive connection
attempts.  The only channels a connector holds toward its owner are the
lane's outgoing command queue and the tunnel-receiver queue; `Event`
records everything it emits on them, plus its log lines and sleeps. -/

/-- One observable action of a connector. -/
inductive ConnectorEvent where
  | logConnectionError
  | attachTunnelOut
  | attachTunnelIn
  | detachTunnelOut
  | sleepSeconds (n : Nat)
  deriving DecidableEq, Repr

/-- The outcome of one iteration of `ClientSideTunnelConnector::run`
(lane.rs lines 440-467): the TCP dial fails, or the handshake fails, or
a tunnel is established (after which the connector waits for the next
`ConnectorCommand` before looping). -/
inductive DialOutcome where
  | dialFail
  | handshakeFail
  | handshakeOk
  deriving DecidableEq, Repr

/-- Rust `ClientSideTunnelConnector::run` (lane.rs lines 440-467) over the
outcome of each successive attempt.  Returns the emitted events and
whether the `loop` was exited by the `break` in the handshake-error
branch (line 462).  A dial failure falls through the `if let Ok` and
loops again immediately; a handshake failure logs and breaks; a success
attaches the tunnel, waits for a command, detaches, and loops. -/
def clientRun : List DialOutcome → List ConnectorEvent × Bool
  | [] => ([], false)
  | DialOutcome.dialFail :: rest => clientRun rest
  | DialOutcome.handshakeFail :: _ => ([.logConnectionError], true)
  | DialOutcome.handshakeOk :: rest =>
    (.attachTunnelOut :: .attachTunnelIn :: .detachTunnelOut ::
       (clientRun rest).1, (clientRun rest).2)

/-- Rust `ServerSideTunnelConnector::run` (lane.rs lines 517-545): a single
attempt, no loop.  `none` models a handshake failure (log and return);
`some` models success (attach, wait for one command, detach). -/
def serverRun : Bool → List ConnectorEvent
  | false => [.logConnectionError]
  | true => [.attachTunnelOut, .attachTunnelIn, .detachTunnelOut]

/-- The command ending one `LocalTunnelConnector::run` iteration
(lane.rs lines 607-642): a `Reset`, a `Close`, or the command channel
having been closed (`recv()` returning `None`). -/
inductive LocalCmd where
  | reset
  | close
  | channelClosed
  deriving DecidableEq, Repr

/-- Rust `LocalTunnelConnector::run` (lane.rs lines 588-645) over one
iteration per list entry: whether the joined pair of handshakes
succeeded, and the command that ends the iteration.  On a handshake
failure the connector logs and sleeps 10 seconds, then (like the
success path) waits for the next command: `Reset` lets the loop
continue, `Close` or a closed channel detaches both sides and returns.
Returns the events and whether the loop was exited by a failure. -/
def localRun : List (Bool × LocalCmd) → List ConnectorEvent × Bool
  | [] => ([], false)
  | (ok, cmd) :: rest =>
    let iter := if ok
      then [ConnectorEvent.attachTunnelOut, .attachTunnelIn,
            .attachTunnelOut, .attachTunnelIn]
      else [ConnectorEvent.logConnectionError, .sleepSeconds 10]
    match cmd with
    | LocalCmd.reset =>
      (iter ++ [.detachTunnelOut, .detachTunnelOut] ++ (localRun rest).1,
        (localRun rest).2)
    | LocalCmd.close => (iter ++ [.detachTunnelOut, .detachTunnelOut], false)
    | LocalCmd.channelClosed =>
      (iter ++ [.detachTunnelOut, .detachTunnelOut], false)

/-! ## Routing lemmas -/

/-- The event `send_frame` produces for a target, as a function of the
lane table alone. -/
def routeEvent (lanes : List (StarKey × LaneMeta)) (star : StarKey)
    (frame : Frame) : SendEvent :=
  match lane_with_shortest_path_to_star lanes star with
  | some (laneKey, _) => SendEvent.sent laneKey frame
  | none => SendEvent.held star frame

theorem send_frame_lanes (s : ProtoStarState) (star : StarKey) (f : Frame) :
    (send_frame s star f).1.lanes = s.lanes := by
  unfold send_frame
  cases lane_with_shortest_path_to_star s.lanes star with
  | none => rfl
  | some kl => rfl

theorem send_frame_events (s : ProtoStarState) (star : StarKey) (f : Frame) :
    (send_frame s star f).2 = [routeEvent s.lanes star f] := by
  unfold send_frame routeEvent
  cases lane_with_shortest_path_to_star s.lanes star with
  | none => rfl
  | some kl => rfl

theorem sendFrames_spec (targets : List StarKey) (s : ProtoStarState)
    (f : Frame) :
    (sendFrames s targets f).2 = targets.map (fun t => routeEvent s.lanes t f) ∧
      (sendFrames s targets f).1.lanes = s.lanes := by
  induction targets generalizing s with
  | nil => exact ⟨rfl, rfl⟩
  | cons t rest ih =>
    have h1 := send_frame_lanes s t f
    have h2 := send_frame_events s t f
    have ihr := ih (send_frame s t f).1
    refine ⟨?_, ?_⟩
    · show (send_frame s t f).2 ++
        (sendFrames (send_frame s t f).1 rest f).2 = _
      rw [h2, ihr.1, h1]
      rfl
    · show (sendFrames (send_frame s t f).1 rest f).1.lanes = _
      rw [ihr.2, h1]

theorem updateLane_cons_eq (a : StarKey) (b : LaneMeta)
    (rest : List (StarKey × LaneMeta)) (f : LaneMeta → LaneMeta) :
    updateLane ((a, b) :: rest) a f = (a, f b) :: updateLane rest a f := by
  simp [updateLane]

theorem updateLane_cons_ne (a : StarKey) (b : LaneMeta)
    (rest : List (StarKey × LaneMeta)) (k : StarKey)
    (f : LaneMeta → LaneMeta) (h : ¬(a = k)) :
    updateLane ((a, b) :: rest) k f = (a, b) :: updateLane rest k f := by
  simp [updateLane, h]

theorem lookupLane_updateLane_self (lanes : List (StarKey × LaneMeta))
    (k : StarKey) (f : LaneMeta → LaneMeta) (m : LaneMeta)
    (h : lookupLane lanes k = some m) :
    lookupLane (updateLane lanes k f) k = some (f m) := by
  induction lanes with
  | nil => cases h
  | cons kl rest ih =>
    obtain ⟨a, b⟩ := kl
    by_cases hk : a = k
    · subst hk
      rw [updateLane_cons_eq]
      simp only [lookupLane] at h ⊢
      simp at h
      simp [h]
    · rw [updateLane_cons_ne a b rest k f hk]
      simp only [lookupLane, if_neg hk] at h
      simp [lookupLane, if_neg hk, ih h]

theorem lookupLane_updateLane_other (lanes : List (StarKey × LaneMeta))
    (k k' : StarKey) (f : LaneMeta → LaneMeta) (h : ¬(k' = k)) :
    lookupLane (updateLane lanes k f) k' = lookupLane lanes k' := by
  induction lanes with
  | nil => rfl
  | cons kl rest ih =>
    obtain ⟨a, b⟩ := kl
    by_cases hk : a = k
    · subst hk
      have ha : ¬(a = k') := fun e => h e.symm
      rw [updateLane_cons_eq]
      simp [lookupLane, if_neg ha, ih]
    · rw [updateLane_cons_ne a b rest k f hk]
      by_cases hk' : a = k'
      · simp [lookupLane, hk']
      · simp [lookupLane, if_neg hk', ih]

theorem updateLane_keys (lanes : List (StarKey × LaneMeta)) (k : StarKey)
    (f : LaneMeta → LaneMeta) :
    (updateLane lanes k f).map Prod.fst = lanes.map Prod.fst := by
  induction lanes with
  | nil => rfl
  | cons kl rest ih =>
    obtain ⟨a, b⟩ := kl
    by_cases hk : a = k
    · subst hk
      rw [updateLane_cons_eq]
      simp [ih]
    · rw [updateLane_cons_ne a b rest k f hk]
      simp [ih]

/-! ## Claims -/

/-- Lane toward star `⟨[], 1⟩`, one cached hop to the target. -/
def c1MetaA : LaneMeta := ⟨some ⟨[], 1⟩, [(⟨[], 3⟩, 1)]⟩

/-- Lane toward star `⟨[], 2⟩`, five cached hops to the target. -/
def c1MetaB : LaneMeta := ⟨some ⟨[], 2⟩, [(⟨[], 3⟩, 5)]⟩

/-- A `ProtoStar` whose lane table iterates the one-hop lane first and
the five-hop lane second. -/
def c1State : ProtoStarState :=
  ⟨some ⟨[], 9⟩, [(⟨[], 1⟩, c1MetaA), (⟨[], 2⟩, c1MetaB)], []⟩

/-- Claim C1: a `ProtoStar` is claimed to send every frame toward `S` on
a lane whose hop count to `S` is minimal among the lanes reporting one.
The code (`ProtoStar::lane_with_shortest_path_to_star`, proto.rs lines
399-416) initializes `min_hops = usize::MAX`, compares each lane's hops
against it, but never updates it, so it returns the last lane in
iteration order that reports any hop count.  Evaluated at `c1State`:
the lane toward `⟨[], 1⟩` reports 1 hop, the lane toward `⟨[], 2⟩`
reports 5 hops, the node-level minimum is 1, yet `send_frame` queues
the frame on the 5-hop lane. -/
theorem c1_lane_selection_not_minimal :
    LaneMeta.get_hops_to_star c1MetaA ⟨[], 3⟩ = some 1 ∧
    LaneMeta.get_hops_to_star c1MetaB ⟨[], 3⟩ = some 5 ∧
    ProtoStar.get_hops_to_star c1State.lanes ⟨[], 3⟩ = some 1 ∧
    lane_with_shortest_path_to_star c1State.lanes ⟨[], 3⟩ =
      some (⟨[], 2⟩, c1MetaB) ∧
    (send_frame c1State ⟨[], 3⟩ (Frame.proto ProtoFrame.centralSearch)).2 =
      [SendEvent.sent ⟨[], 2⟩ (Frame.proto ProtoFrame.centralSearch)] := by
  refine ⟨by decide, by decide, by decide, by decide, by decide⟩

/-- A node with a direct lane to Central and a lane to star `⟨[], 4⟩`,
both hop caches empty. -/
def c3State : ProtoStarState :=
  ⟨some ⟨[], 9⟩,
    [(StarKey.central, ⟨some StarKey.central, []⟩),
     (⟨[], 4⟩, ⟨some ⟨[], 4⟩, []⟩)], []⟩

/-- Claim C3, counterexample: the claim says `CentralFound(h+1)` is sent
on every lane except the arrival lane `L`.  At `c3State`, receiving
`CentralFound(1)` on the lane keyed `⟨[], 4⟩` first records
`central ↦ 1` in that lane's cache; the subsequent broadcast excludes
`⟨[], 4⟩` only from the *target stars*, and `send_frame` toward the
remaining target (Central) routes by `lane_with_shortest_path_to_star`,
which picks the arrival lane itself — so the rebroadcast goes out on
`L`, and on no other lane. -/
theorem c3_counter_centralfound_sent_on_arrival_lane :
    (handleCentralFound c3State ⟨[], 4⟩ 1).2 =
      [SendEvent.sent ⟨[], 4⟩ (Frame.proto (ProtoFrame.centralFound 2))] ∧
    c3State.lanes.map Prod.fst = [StarKey.central, ⟨[], 4⟩] := by
  refine ⟨by decide, by decide⟩

/-- Claim C3, amended: receiving `Proto(CentralFound(h))` on lane `L`
records `h` for Central in `L`'s `star_paths` and alters no other
lane's cache; it then emits exactly one `CentralFound(h+1)` routing
event per lane key other than `L`, each routed through
`lane_with_shortest_path_to_star` over the updated lane table — which
may select lane `L` itself — rather than necessarily on that lane. -/
theorem c3_centralfound_records_and_rebroadcasts
    (s : ProtoStarState) (laneKey : StarKey) (hops : Nat) :
    (∀ m, lookupLane s.lanes laneKey = some m →
      lookupLane (handleCentralFound s laneKey hops).1.lanes laneKey =
        some (bumpCentral hops m)) ∧
    (∀ k, ¬(k = laneKey) →
      lookupLane (handleCentralFound s laneKey hops).1.lanes k =
        lookupLane s.lanes k) ∧
    (handleCentralFound s laneKey hops).2 =
      ((s.lanes.map Prod.fst).filter (fun k => !(k = laneKey : Bool))).map
        (fun t => routeEvent (updateLane s.lanes laneKey (bumpCentral hops))
          t (Frame.proto (ProtoFrame.centralFound (hops + 1)))) := by
  have hspec := sendFrames_spec
    (((updateLane s.lanes laneKey (bumpCentral hops)).map Prod.fst).filter
      (fun k => !(k ∈ [laneKey] : Bool)))
    { s with lanes := updateLane s.lanes laneKey (bumpCentral hops) }
    (Frame.proto (ProtoFrame.centralFound (hops + 1)))
  have hfilter : (fun (k : StarKey) => !(k ∈ [laneKey] : Bool)) =
      (fun k => !(k = laneKey : Bool)) := by
    funext k
    by_cases h : k = laneKey <;> simp [h]
  refine ⟨?_, ?_, ?_⟩
  · intro m hm
    show lookupLane (sendFrames
      { s with lanes := updateLane s.lanes laneKey (bumpCentral hops) } _
      _).1.lanes laneKey = _
    rw [hspec.2]
    exact lookupLane_updateLane_self s.lanes laneKey _ m hm
  · intro k hk
    show lookupLane (sendFrames
      { s with lanes := updateLane s.lanes laneKey (bumpCentral hops) } _
      _).1.lanes k = _
    rw [hspec.2]
    exact lookupLane_updateLane_other s.lanes laneKey k _ hk
  · show (sendFrames
      { s with lanes := updateLane s.lanes laneKey (bumpCentral hops) } _
      _).2 = _
    rw [hspec.1, updateLane_keys, hfilter]

/-- Witness for the amended C3 at the concrete two-lane node: the
arrival lane's cache gains `central ↦ 1`, the other lane's cache is
untouched. -/
theorem c3_centralfound_amended_witness :
    lookupLane (handleCentralFound c3State ⟨[], 4⟩ 1).1.lanes ⟨[], 4⟩ =
      some ⟨some ⟨[], 4⟩, [(StarKey.central, 1)]⟩ ∧
    lookupLane (handleCentralFound c3State ⟨[], 4⟩ 1).1.lanes StarKey.central =
      some ⟨some StarKey.central, []⟩ := by
  have h := c3_centralfound_records_and_rebroadcasts c3State ⟨[], 4⟩ 1
  constructor
  · have := h.1 ⟨some ⟨[], 4⟩, []⟩ (by decide)
    rw [this]
    decide
  · have := h.2.1 StarKey.central (by decide)
    rw [this]
    decide

/-- Claim C9: on a lane whose remote star is confirmed, after any
sequence of `set_hops_to_star` updates (starting from any cache
contents, including entries for the remote star itself),
`get_hops_to_star` applied to the lane's own remote star returns
`Some(1)`: `LaneMeta::get_hops_to_star` checks the remote star before
consulting the cache. -/
theorem c9_remote_star_hops_one (remote : StarKey)
    (paths0 : List (StarKey × Nat)) (ops : List (StarKey × Nat)) :
    LaneMeta.get_hops_to_star
      (ops.foldl (fun m p => m.set_hops_to_star p.1 p.2)
        ⟨some remote, paths0⟩) remote = some 1 := by
  have hrs : ∀ (ops : List (StarKey × Nat)) (m : LaneMeta),
      (ops.foldl (fun m p => m.set_hops_to_star p.1 p.2) m).remote_star =
        m.remote_star := by
    intro ops
    induction ops with
    | nil => intro m; rfl
    | cons p rest ih =>
      intro m
      simp only [List.foldl_cons, ih]
      rfl
  unfold LaneMeta.get_hops_to_star
  rw [hrs ops ⟨some remote, paths0⟩]
  simp

theorem runMid_frames (fs : List Frame) (q : List Frame)
    (rest : List LaneCommand) :
    runMid ⟨none, q⟩ (fs.map LaneCommand.frame ++ rest) =
      runMid ⟨none, q ++ fs⟩ rest := by
  induction fs generalizing q with
  | nil => simp
  | cons f t ih =>
    show runMid ⟨none, q ++ [f]⟩ (t.map LaneCommand.frame ++ rest) = _
    rw [ih (q ++ [f])]
    simp

/-- Claim C5: frames sent to a detached lane are buffered, and attaching
a tunnel delivers exactly those frames, in the original send order,
before anything the remaining commands push to that tunnel. -/
theorem c5_detached_frames_flushed_in_order (fs : List Frame) (tid : Nat)
    (rest : List LaneCommand) :
    runMid ⟨none, []⟩
        (fs.map LaneCommand.frame ++ LaneCommand.tunnel (some tid) :: rest) =
      ((runMid ⟨some tid, []⟩ rest).1,
        fs.map (fun f => (tid, f)) ++ (runMid ⟨some tid, []⟩ rest).2) := by
  rw [runMid_frames fs [] (LaneCommand.tunnel (some tid) :: rest)]
  simp only [List.nil_append]
  rfl

theorem runMid_shutdown_append (cs : List LaneCommand) (st : MidState)
    (rest : List LaneCommand) (h : LaneCommand.shutdown ∉ cs) :
    runMid st (cs ++ LaneCommand.shutdown :: rest) =
      ((runMid st cs).1,
        (runMid st cs).2 ++
          (match (runMid st cs).1.tunnel with
           | some tid => [(tid, Frame.close)]
           | none => [])) := by
  induction cs generalizing st with
  | nil => rfl
  | cons c t ih =>
    have hc : LaneCommand.shutdown ∉ t := fun m => h (List.mem_cons_of_mem c m)
    have hcc : ¬(c = LaneCommand.shutdown) := fun e => h (e ▸ List.mem_cons_self c t)
    obtain ⟨tun, q⟩ := st
    cases c with
    | tunnel o =>
      cases o with
      | some tid =>
        show ((runMid ⟨some tid, []⟩ (t ++ LaneCommand.shutdown :: rest)).1,
          q.map (fun f => (tid, f)) ++
            (runMid ⟨some tid, []⟩ (t ++ LaneCommand.shutdown :: rest)).2) = _
        rw [ih ⟨some tid, []⟩ hc]
        simp [runMid]
      | none =>
        show runMid ⟨none, q⟩ (t ++ LaneCommand.shutdown :: rest) = _
        rw [ih ⟨none, q⟩ hc]
        rfl
    | frame f =>
      cases tun with
      | some tid =>
        show ((runMid ⟨some tid, q⟩ (t ++ LaneCommand.shutdown :: rest)).1,
          (tid, f) :: (runMid ⟨some tid, q⟩ (t ++ LaneCommand.shutdown :: rest)).2) = _
        rw [ih ⟨some tid, q⟩ hc]
        simp [runMid]
      | none =>
        show runMid ⟨none, q ++ [f]⟩ (t ++ LaneCommand.shutdown :: rest) = _
        rw [ih ⟨none, q ++ [f]⟩ hc]
        rfl
    | shutdown => exact absurd rfl hcc

/-- Claim C10: whatever commands a lane's middle loop has processed so
far (none of them a `Shutdown`), processing `Shutdown` emits exactly one
`Frame::Close` to the currently attached tunnel — nothing when detached
— drops every still-buffered frame without delivering it anywhere, and
stops the loop: the commands after the `Shutdown` contribute nothing. -/
theorem c10_shutdown_close_discard_stop (cs : List LaneCommand)
    (rest : List LaneCommand) (h : LaneCommand.shutdown ∉ cs) :
    runMid ⟨none, []⟩ (cs ++ LaneCommand.shutdown :: rest) =
      ((runMid ⟨none, []⟩ cs).1,
        (runMid ⟨none, []⟩ cs).2 ++
          (match (runMid ⟨none, []⟩ cs).1.tunnel with
           | some tid => [(tid, Frame.close)]
           | none => [])) :=
  runMid_shutdown_append cs ⟨none, []⟩ rest h

/-- Witness for C10 at a concrete command sequence: two frames are
buffered while detached and discarded by the shutdown (detached case:
no event at all); with a tunnel attached the shutdown emits exactly one
`Close`. -/
theorem c10_shutdown_witness :
    runMid ⟨none, []⟩
        ([LaneCommand.frame (Frame.diagnose FrameDiagnose.ping),
          LaneCommand.frame Frame.close] ++
          LaneCommand.shutdown :: [LaneCommand.frame Frame.close]) =
      (⟨none, [Frame.diagnose FrameDiagnose.ping, Frame.close]⟩, []) ∧
    runMid ⟨none, []⟩ ([LaneCommand.tunnel (some 3)] ++
        LaneCommand.shutdown :: []) =
      (⟨some 3, []⟩, [(3, Frame.close)]) := by
  constructor
  · rw [c10_shutdown_close_discard_stop
      [LaneCommand.frame (Frame.diagnose FrameDiagnose.ping),
        LaneCommand.frame Frame.close] [LaneCommand.frame Frame.close]
      (by decide)]
    decide
  · rw [c10_shutdown_close_discard_stop [LaneCommand.tunnel (some 3)] []
      (by decide)]
    decide

/-- Claim C2: two `ProtoTunnel`s wired end-to-end by `local_tunnels`,
each knowing its own identity and built with the same protocol version,
both evolve successfully; the side with identity `a` obtains
`remote_star = b` on its sender and receiver, and vice versa (and no
frames beyond the handshake are consumed from either `rx`). -/
theorem c2_local_tunnels_handshake_symmetry (a b : StarKey) :
    local_tunnels_evolve (some a) (some b) =
      (Except.ok (⟨b⟩, ⟨b, []⟩), Except.ok (⟨a⟩, ⟨a, []⟩)) := by
  rfl

/-- The first receive of `evolve` succeeds only on a `Proto` frame. -/
def Frame.isProto : Frame → Bool
  | .proto _ => true
  | _ => false

/-- Whether a `ProtoFrame` is a `StarLaneProtocolVersion` frame. -/
def ProtoFrame.isVersionFrame : ProtoFrame → Bool
  | .starLaneProtocolVersion _ => true
  | _ => false

/-- Whether a `ProtoFrame` is a `ReportStarKey` frame. -/
def ProtoFrame.isReportStarKey : ProtoFrame → Bool
  | .reportStarKey _ => true
  | _ => false

/-- Equality of handshake results is decidable. -/
instance exceptDecEq {ε α : Type} [DecidableEq ε] [DecidableEq α] :
    DecidableEq (Except ε α)
  | Except.ok x, Except.ok y =>
    match decEq x y with
    | isTrue h => isTrue (by rw [h])
    | isFalse h => isFalse (fun e => h (by cases e; rfl))
  | Except.ok _, Except.error _ => isFalse (fun h => Except.noConfusion h)
  | Except.error _, Except.ok _ => isFalse (fun h => Except.noConfusion h)
  | Except.error e, Except.error e' =>
    match decEq e e' with
    | isTrue h => isTrue (by rw [h])
    | isFalse h => isFalse (fun x => h (by cases x; rfl))

/-- Claim C6, counterexample: the claim says a first received frame with
"any other unexpected content" fails with `UnexpectedFrame`.  But the
code matches `if let Some(Frame::Proto(recv)) = rx.recv().await`, so a
received frame that is not a `Proto` frame at all — here, a concrete
`Frame::Close` — falls into the `else` branch and yields the
`Disconnected` ("disconnected") error, not `UnexpectedFrame`. -/
theorem c6_counter_nonproto_first_frame_disconnected :
    evolveRecv STARLANE_PROTOCOL_VERSION [Frame.close] ≠
      Except.error HandshakeError.unexpectedFrame ∧
    evolveRecv STARLANE_PROTOCOL_VERSION [Frame.close] =
      Except.error HandshakeError.disconnected := by
  refine ⟨by decide, by decide⟩

/-- Claim C6, amended: after sending its version (and optional identity)
frame, a handshake side fails as follows — a first `Proto` frame with a
different version gives `VersionMismatch`; any other first `Proto`
frame gives `UnexpectedFrame`; a non-`Proto` first frame, like a closed
channel, gives `Disconnected`; a second `Proto` frame other than
`ReportStarKey` gives `UnexpectedFrame`; a non-`Proto` second frame,
like a channel closed after the first frame, gives `Disconnected`; and
in every failing case `evolve` produces an error and no tunnel. -/
theorem c6_handshake_error_taxonomy :
    (∀ (v w : Int) (rest : List Frame), ¬(w = v) →
      evolveRecv v (Frame.proto (ProtoFrame.starLaneProtocolVersion w) :: rest) =
        Except.error (HandshakeError.versionMismatch w)) ∧
    (∀ (v : Int) (p : ProtoFrame) (rest : List Frame),
      p.isVersionFrame = false →
      evolveRecv v (Frame.proto p :: rest) =
        Except.error HandshakeError.unexpectedFrame) ∧
    (∀ (v : Int) (f : Frame) (rest : List Frame), f.isProto = false →
      evolveRecv v (f :: rest) = Except.error HandshakeError.disconnected) ∧
    (∀ v : Int, evolveRecv v [] = Except.error HandshakeError.disconnected) ∧
    (∀ (v : Int) (k : StarKey) (rest : List Frame),
      evolveRecv v (Frame.proto (ProtoFrame.starLaneProtocolVersion v) ::
          Frame.proto (ProtoFrame.reportStarKey k) :: rest) =
        Except.ok (k, rest)) ∧
    (∀ (v : Int) (p : ProtoFrame) (rest : List Frame),
      p.isReportStarKey = false →
      evolveRecv v (Frame.proto (ProtoFrame.starLaneProtocolVersion v) ::
          Frame.proto p :: rest) =
        Except.error HandshakeError.unexpectedFrame) ∧
    (∀ (v : Int) (f : Frame) (rest : List Frame), f.isProto = false →
      evolveRecv v (Frame.proto (ProtoFrame.starLaneProtocolVersion v) ::
          f :: rest) =
        Except.error HandshakeError.disconnected) ∧
    (∀ v : Int,
      evolveRecv v [Frame.proto (ProtoFrame.starLaneProtocolVersion v)] =
        Except.error HandshakeError.disconnected) ∧
    (∀ (v : Int) (star : Option StarKey) (incoming : List Frame)
        (e : HandshakeError), evolveRecv v incoming = Except.error e →
      (ProtoTunnel.evolve v star incoming).2 = Except.error e) := by
  refine ⟨?_, ?_, ?_, ?_, ?_, ?_, ?_, ?_, ?_⟩
  · intro v w rest h
    simp [evolveRecv, h]
  · intro v p rest h
    cases p <;> simp [ProtoFrame.isVersionFrame] at h ⊢ <;>
      simp [evolveRecv]
  · intro v f rest h
    cases f <;> simp [Frame.isProto] at h ⊢ <;> simp [evolveRecv]
  · intro v
    rfl
  · intro v k rest
    simp [evolveRecv]
  · intro v p rest h
    cases p <;> simp [ProtoFrame.isReportStarKey] at h ⊢ <;>
      simp [evolveRecv]
  · intro v f rest h
    cases f <;> simp [Frame.isProto] at h ⊢ <;> simp [evolveRecv]
  · intro v
    simp [evolveRecv]
  · intro v star incoming e h
    show (match evolveRecv v incoming with
      | Except.ok (remote, rest) =>
        Except.ok (TunnelSender.mk remote, TunnelReceiver.mk remote rest)
      | Except.error e => Except.error e) = Except.error e
    rw [h]

/-- Witness for the amended C6 at concrete inputs: a `CentralSearch`
first frame is `UnexpectedFrame`; a `Close` second frame is
`Disconnected`; and the error case of `evolve` produces no tunnel. -/
theorem c6_handshake_error_taxonomy_witness :
    evolveRecv 1 [Frame.proto ProtoFrame.centralSearch] =
      Except.error HandshakeError.unexpectedFrame ∧
    evolveRecv 1 [Frame.proto (ProtoFrame.starLaneProtocolVersion 1),
        Frame.close] =
      Except.error HandshakeError.disconnected ∧
    (ProtoTunnel.evolve 1 none [Frame.close]).2 =
      Except.error HandshakeError.disconnected := by
  refine ⟨c6_handshake_error_taxonomy.2.1 1 ProtoFrame.centralSearch []
      (by decide),
    c6_handshake_error_taxonomy.2.2.2.2.2.2.1 1 Frame.close [] (by decide),
    c6_handshake_error_taxonomy.2.2.2.2.2.2.2.2 1 none [Frame.close]
      HandshakeError.disconnected (by decide)⟩

/-- Claim C7: once `track(f, pred)` installs the single case, each
elapsed timeout interval during which no matching frame arrives yields
exactly one `FrameTimeout` whose `retries` field counts the intervals so
far (`r + 1`, `r + 2`, ... from a case already at `r` retries; `1, 2,
...` from a fresh `track`); processing any frame satisfying the
predicate clears the slot; and an empty tracker yields no timeouts at
all no matter how many intervals elapse. -/
theorem c7_tracker_timeouts_and_clearing :
    (∀ (f : Frame) (p : Frame → Bool) (t : ProtoTracker),
      ProtoTracker.track t f p = ⟨some ⟨f, p, 0⟩⟩) ∧
    (∀ (f : Frame) (p : Frame → Bool) (r k : Nat),
      runTracker ⟨some ⟨f, p, r⟩⟩ (List.replicate k TrackerOp.check) =
        (⟨some ⟨f, p, r + k⟩⟩,
          (List.range k).map (fun i => ⟨f, r + i + 1⟩))) ∧
    (∀ (f : Frame) (p : Frame → Bool) (r : Nat) (g : Frame), p g = true →
      ProtoTracker.process ⟨some ⟨f, p, r⟩⟩ g = ⟨none⟩) ∧
    (∀ k : Nat, runTracker ⟨none⟩ (List.replicate k TrackerOp.check) =
      (⟨none⟩, [])) := by
  refine ⟨?_, ?_, ?_, ?_⟩
  · intro f p t
    rfl
  · intro f p r k
    induction k generalizing r with
    | zero => simp [runTracker]
    | succ k ih =>
      show ((runTracker ⟨some ⟨f, p, r + 1⟩⟩
          (List.replicate k TrackerOp.check)).1,
        FrameTimeoutInner.mk f (r + 1) ::
          (runTracker ⟨some ⟨f, p, r + 1⟩⟩
            (List.replicate k TrackerOp.check)).2) = _
      rw [ih (r + 1)]
      simp only [Prod.mk.injEq]
      constructor
      · have h1 : r + 1 + k = r + (k + 1) := by omega
        rw [h1]
      · rw [List.range_succ_eq_map, List.map_cons, List.map_map]
        simp only [List.cons.injEq]
        constructor
        · simp
        · refine List.map_congr_left ?_
          intro i _
          show FrameTimeoutInner.mk f (r + 1 + i + 1) =
            FrameTimeoutInner.mk f (r + (i + 1) + 1)
          have h2 : r + 1 + i + 1 = r + (i + 1) + 1 := by omega
          rw [h2]
  · intro f p r g h
    simp [ProtoTracker.process, h]
  · intro k
    induction k with
    | zero => rfl
    | succ k ih =>
      show ((runTracker ⟨none⟩ (List.replicate k TrackerOp.check)).1,
        (runTracker ⟨none⟩ (List.replicate k TrackerOp.check)).2) = _
      rw [ih]

/-- Witness for C7 at concrete inputs: two unmet intervals yield
`retries` 1 then 2; a matching frame clears the slot. -/
theorem c7_tracker_witness :
    runTracker ⟨some ⟨Frame.proto ProtoFrame.centralSearch,
        Frame.isProto, 0⟩⟩
      (List.replicate 2 TrackerOp.check) =
      (⟨some ⟨Frame.proto ProtoFrame.centralSearch, Frame.isProto, 2⟩⟩,
        [⟨Frame.proto ProtoFrame.centralSearch, 1⟩,
         ⟨Frame.proto ProtoFrame.centralSearch, 2⟩]) ∧
    ProtoTracker.process ⟨some ⟨Frame.proto ProtoFrame.centralSearch,
        Frame.isProto, 5⟩⟩ (Frame.proto (ProtoFrame.centralFound 3)) =
      ⟨none⟩ := by
  refine ⟨?_, c7_tracker_timeouts_and_clearing.2.2.1
    (Frame.proto ProtoFrame.centralSearch) Frame.isProto 5
    (Frame.proto (ProtoFrame.centralFound 3)) rfl⟩
  have h := c7_tracker_timeouts_and_clearing.2.1
    (Frame.proto ProtoFrame.centralSearch) Frame.isProto 0 2
  rw [h]
  rfl

/-- Claim C4: for every representable `Frame` value, deserializing the
byte payload produced by serializing it with the `FrameCodex` wire codec
yields the same frame back. -/
theorem c4_frame_codec_roundtrip (f : Frame) (h : Frame.wf f = true) :
    deserializeFrame (serializeFrame f) = some f := by
  unfold deserializeFrame serializeFrame
  have hr : Frame.read (Frame.write f ++ []) = some (f, []) :=
    Frame_read_write f [] h
  rw [List.append_nil] at hr
  rw [hr]

/-- A sample frame touching nested payloads: a `StarMessage` with a
transaction id and a rejection payload. -/
def c4SampleFrame : Frame :=
  Frame.starMessage ⟨⟨[1, 2], 3⟩, ⟨[], 0⟩, ⟨5, 6⟩, some ⟨7, 8⟩,
    StarMessagePayload.reject ⟨[104, 105]⟩, 0, 16⟩

/-- Witness for C4 at the concrete sample frame. -/
theorem c4_frame_codec_roundtrip_witness :
    Frame.wf c4SampleFrame = true ∧
    deserializeFrame (serializeFrame c4SampleFrame) = some c4SampleFrame :=
  ⟨by decide, c4_frame_codec_roundtrip c4SampleFrame (by decide)⟩

/-- Claim C8, counterexample: the claim says a failed handshake is
swallowed and the reconnect loop does not terminate because of it.  In
`ClientSideTunnelConnector::run`, the `Err` branch of the handshake
match executes `break`: with a handshake failure on the first attempt,
the run logs once and the loop exits (`true`), never reaching the next
attempt — no retry, and no delay. -/
theorem c8_counter_client_breaks_on_handshake_failure :
    clientRun [DialOutcome.handshakeFail, DialOutcome.dialFail] =
      ([ConnectorEvent.logConnectionError], true) := by
  decide

/-- Claim C8, amended: a failed dial is swallowed by the client
connector, which retries immediately (sending nothing toward the lane
or the node); a failed handshake is logged and never delivered to the
owning node — the connector holds no channel on which it could be —
but it terminates the client-side reconnect loop instead of retrying;
the server-side connector makes a single attempt and just logs on
failure; the in-process loopback connector logs, sleeps 10 seconds and
stays alive awaiting the next command, and its loop never exits because
of a failure. -/
theorem c8_connector_failure_handling :
    (∀ rest, clientRun (DialOutcome.dialFail :: rest) = clientRun rest) ∧
    (∀ rest, clientRun (DialOutcome.handshakeFail :: rest) =
      ([ConnectorEvent.logConnectionError], true)) ∧
    (serverRun false = [ConnectorEvent.logConnectionError]) ∧
    (∀ rest, localRun ((false, LocalCmd.reset) :: rest) =
      (ConnectorEvent.logConnectionError :: ConnectorEvent.sleepSeconds 10 ::
        ConnectorEvent.detachTunnelOut :: ConnectorEvent.detachTunnelOut ::
        (localRun rest).1, (localRun rest).2)) ∧
    (∀ iters, (localRun iters).2 = false) := by
  refine ⟨?_, ?_, rfl, ?_, ?_⟩
  · intro rest
    rfl
  · intro rest
    rfl
  · intro rest
    rfl
  · intro iters
    induction iters with
    | nil => rfl
    | cons it rest ih =>
      obtain ⟨ok, cmd⟩ := it
      cases cmd with
      | reset => exact ih
      | close => rfl
      | channelClosed => rfl

end Starlane
